import Mathlib

/-!
Verification development for the polygon reconciliation repository
(`interface`): shallow embedding of the alignment engine
(`src/modules/process/align.py`), the reference simplifiers
(`src/data/functions/align_base.py`, `src/data/functions/merge.py`,
`src/data/align.py`), the nearest-address search and its chunked
coordinator (`src/data/functions/asign5.py`), and the chunked
roof/parcel intersection (`src/data/functions/divpar6.py`).

Geometry primitives (shapely) are an external collaborator of the
repository; they are abstracted as a `GeomAdapter` record of operations,
and instantiated for concrete test points by `RA`, a model whose
geometries are finite unions of axis-aligned rational rectangles.  In
`RA` the two distance operations return the *square* of the Euclidean
distance; every comparison the source performs on distances is strictly
monotone (argmin, `<`, `≤` against a configured threshold), so running
the embedded code on squared distances with squared thresholds makes
exactly the decisions the source makes on true distances.
-/

unseal Rat.add Rat.mul Rat.inv Rat.sub

namespace Interface

/-- Axis-aligned rectangle with rational corners: the building block of the
concrete geometry model used to evaluate the embedded code. -/
structure Rect where
  x1 : ℚ
  y1 : ℚ
  x2 : ℚ
  y2 : ℚ
deriving DecidableEq, Repr

/-- A concrete geometry value: a finite union of axis-aligned rectangles
(a point is a degenerate rectangle, a multi-part polygon a list). -/
abbrev MRect := List Rect

/-- Bounding box, as returned by shapely `bounds`. -/
structure Box where
  minx : ℚ
  miny : ℚ
  maxx : ℚ
  maxy : ℚ
deriving DecidableEq, Repr

/-- Closed-box overlap test: how a bounding-box spatial index decides
which candidates to return. -/
def Box.overlaps (a b : Box) : Bool :=
  decide (a.minx ≤ b.maxx) && decide (b.minx ≤ a.maxx) &&
  decide (a.miny ≤ b.maxy) && decide (b.miny ≤ a.maxy)

/-- Smallest box containing two boxes. -/
def Box.join (a b : Box) : Box :=
  ⟨min a.minx b.minx, min a.miny b.miny, max a.maxx b.maxx, max a.maxy b.maxy⟩

/-- The geometry operations the repository obtains from shapely/geopandas.
`distPP`, `distGP` and `dist` stand for point–point, geometry–point and
geometry–geometry distance (shapely `Point.distance`, `geometry.distance`).
An instantiation may realise them as any strictly monotone image of the
Euclidean distance, since the source only ever compares distances. -/
structure GeomAdapter (G : Type) where
  area : G → ℚ
  centroid : G → ℚ × ℚ
  intersects : G → G → Bool
  interArea : G → G → ℚ
  interGeom : G → G → G
  distPP : ℚ × ℚ → ℚ × ℚ → ℚ
  distGP : G → ℚ × ℚ → ℚ
  dist : G → G → ℚ
  nearestPointOn : G → ℚ × ℚ → ℚ × ℚ
  translate : G → ℚ → ℚ → G
  touches : G → G → Bool
  unionAll : List G → G
  decompose : G → List G
  bounds : G → Box
  isEmptyG : G → Bool
  isPoly2D : G → Bool

/-- Alignment status written into the `alignment` attribute by
`align_target_to_reference_inside` (src/modules/process/align.py). -/
inductive AlignStatus
  | aligned
  | adjusted
  | not_aligned
deriving DecidableEq, Repr

/-- The record built per target by `align_target_to_reference_inside`
(src/modules/process/align.py, lines 114-144): the attribute keys
`alignment`, `ref_area`, `overlap` and the output geometry.  The source
never writes a distance key in any branch; the `distance` field models
presence (`some`) or absence (`none`) of such a key. -/
structure MatchResult (G : Type) where
  alignment : AlignStatus
  ref_area : ℚ
  overlap : ℚ
  distance : Option ℚ
  geometry : G
deriving DecidableEq, Repr

/-- One step of a first-minimum scan: the source pattern
`if d < min_dist: min_dist, best = d, ref` with `min_dist` starting at
infinity (`none`). -/
def minStep {α : Type} (f : α → ℚ) (acc : Option (α × ℚ)) (x : α) : Option (α × ℚ) :=
  match acc with
  | none => some (x, f x)
  | some (b, m) => if f x < m then some (x, f x) else some (b, m)

/-- First element attaining the minimum of `f`, with its value: the loop
`for ref in ...: d := f ref; if d < min_dist: update` of
src/modules/process/align.py lines 120-127 and the `idxmin` call of
src/data/functions/asign5.py line 55. -/
def argminFirst {α : Type} (f : α → ℚ) (l : List α) : Option (α × ℚ) :=
  l.foldl (minStep f) none

/-- One step of a strict-improvement maximum scan guarded by a predicate:
the source pattern `if p(ref): if f(ref) > best: update`. -/
def maxStep {α : Type} (p : α → Bool) (f : α → ℚ) (acc : Option α × ℚ) (x : α) :
    Option α × ℚ :=
  if p x then (if f x > acc.2 then (some x, f x) else acc) else acc

/-- `overlap_ratio = intersection_area / target_area`
(src/modules/process/align.py line 108). -/
def align_ratio {G : Type} (A : GeomAdapter G) (t ref : G) : ℚ :=
  A.interArea t ref / A.area t

/-- The best-overlap scan of src/modules/process/align.py lines 102-112:
`best_match = None; best_overlap_ratio = 0.0;` then for each reference, if
it intersects the target and its overlap ratio strictly exceeds the
current best, it becomes the best match. -/
def align_bestOverlap {G : Type} (A : GeomAdapter G) (t : G) (refs : List G) :
    Option G × ℚ :=
  refs.foldl (maxStep (fun ref => A.intersects t ref) (align_ratio A t)) (none, 0)

/-- The nearest-reference scan of src/modules/process/align.py lines
120-127: minimise centroid-to-centroid distance over the entire reference
list, first minimiser kept. -/
def align_nearest {G : Type} (A : GeomAdapter G) (t : G) (refs : List G) :
    Option (G × ℚ) :=
  argminFirst (fun ref => A.distPP (A.centroid t) (A.centroid ref)) refs

/-- `translate_polygon_to_point` (src/data/functions/align_base.py lines
169-183): translate a polygon so its centroid lands on the given point;
identical to the inline `translate(target_geom, xoff=..., yoff=...)` of
src/modules/process/align.py lines 131-135. -/
def translate_polygon_to_point {G : Type} (A : GeomAdapter G) (g : G) (pt : ℚ × ℚ) : G :=
  A.translate g (pt.1 - (A.centroid g).1) (pt.2 - (A.centroid g).2)

/-- The fallback branch of src/modules/process/align.py lines 119-144:
nearest-reference search, adjustment by rigid translation when within
`max_distance`, else `not_aligned` with zeroed diagnostics. -/
def align_fallback {G : Type} (A : GeomAdapter G) (maxDistance : ℚ) (refs : List G)
    (t : G) : MatchResult G :=
  match align_nearest A t refs with
  | some (nearestRef, minDistance) =>
      if minDistance ≤ maxDistance then
        { alignment := .adjusted
          ref_area := A.area nearestRef
          overlap := 0
          distance := none
          geometry := translate_polygon_to_point A t (A.nearestPointOn nearestRef (A.centroid t)) }
      else
        { alignment := .not_aligned, ref_area := 0, overlap := 0, distance := none, geometry := t }
  | none =>
      { alignment := .not_aligned, ref_area := 0, overlap := 0, distance := none, geometry := t }

/-- The branch on the best-overlap result (src/modules/process/align.py
line 114: `if best_match and best_overlap_ratio >= min_overlap_ratio`),
taking the already computed best pair as an argument. -/
def align_one_from {G : Type} (A : GeomAdapter G) (maxDistance minOverlapRatio : ℚ)
    (refs : List G) (t : G) (best : Option G × ℚ) : MatchResult G :=
  match best with
  | (some bestMatch, bestRatio) =>
      if bestRatio ≥ minOverlapRatio then
        { alignment := .aligned
          ref_area := A.area bestMatch
          overlap := bestRatio
          distance := none
          geometry := t }
      else align_fallback A maxDistance refs t
  | (none, _) => align_fallback A maxDistance refs t

/-- The per-target body of `align_target_to_reference_inside`
(src/modules/process/align.py lines 98-144). -/
def align_one {G : Type} (A : GeomAdapter G) (maxDistance minOverlapRatio : ℚ)
    (refs : List G) (t : G) : MatchResult G :=
  align_one_from A maxDistance minOverlapRatio refs t (align_bestOverlap A t refs)

/-- `align_target_to_reference_inside` (src/modules/process/align.py lines
91-148): classify every target, returning `aligned_data + unaligned_data`
(matched targets in input order, then not-aligned targets in input order). -/
def align_target_to_reference_inside {G : Type} (A : GeomAdapter G)
    (maxDistance minOverlapRatio : ℚ) (targets : List G) (refs : List G) :
    List (MatchResult G) :=
  let results := targets.map (align_one A maxDistance minOverlapRatio refs)
  results.filter (fun r => !(r.alignment == AlignStatus.not_aligned)) ++
    results.filter (fun r => r.alignment == AlignStatus.not_aligned)

/-- The spec's best overlap ratio for a target: `overlap_ratio` maximised
over the references intersecting the target (spec §4.3 step 1), written
directly from the spec's words; 0 when nothing intersects, matching the
source's `best_overlap_ratio = 0.0` initialisation. -/
def spec_bestOverlapRatio {G : Type} (A : GeomAdapter G) (t : G) (refs : List G) : ℚ :=
  ((refs.filter (fun ref => A.intersects t ref)).map (align_ratio A t)).foldl max 0

/-- Best-overlap scan with the division made fallible, modelling Python's
`ZeroDivisionError`: `intersection_area / target_geom.area` is evaluated
for every intersecting reference with no guard
(src/modules/process/align.py lines 105-108), and raises exactly when the
target's area is zero. -/
def align_bestOverlapCheckedGo {G : Type} (A : GeomAdapter G) (t : G) :
    List G → Option G × ℚ → Option (Option G × ℚ)
  | [], acc => some acc
  | ref :: rest, acc =>
      if A.intersects t ref then
        if A.area t = 0 then none
        else
          align_bestOverlapCheckedGo A t rest
            (if align_ratio A t ref > acc.2 then (some ref, align_ratio A t ref) else acc)
      else align_bestOverlapCheckedGo A t rest acc

/-- Per-target alignment with the unguarded division modelled fallibly:
`none` is the `ZeroDivisionError` outcome. -/
def align_one_checked {G : Type} (A : GeomAdapter G) (maxDistance minOverlapRatio : ℚ)
    (refs : List G) (t : G) : Option (MatchResult G) :=
  (align_bestOverlapCheckedGo A t refs (none, 0)).map
    (align_one_from A maxDistance minOverlapRatio refs t)

/-- `merge_small_adjacent_polygons` (src/data/functions/merge.py lines
22-42, identically src/modules/process/align.py lines 35-51 and
src/data/align.py lines 59-94): split references at the area threshold,
union the small ones, split a multi-part union back into parts, return
large polygons followed by the union's parts.  The source guards the
union with `if small_polygons:`. -/
def merge_small_adjacent_polygons {G : Type} (A : GeomAdapter G) (minArea : ℚ)
    (refs : List G) : List G :=
  let smalls := refs.filter (fun g => decide (A.area g < minArea))
  let larges := refs.filter (fun g => decide (A.area g ≥ minArea))
  let smallParts := if smalls.isEmpty then [] else A.decompose (A.unionAll smalls)
  larges ++ smallParts

/-- The merge-small pass as the spec words it (spec §4.1): large polygons
unchanged, together with the decomposition of the geometric union of all
small polygons, with no emptiness guard. -/
def spec_mergeSmall {G : Type} (A : GeomAdapter G) (minArea : ℚ) (refs : List G) :
    List G :=
  refs.filter (fun g => decide (A.area g ≥ minArea)) ++
    A.decompose (A.unionAll (refs.filter (fun g => decide (A.area g < minArea))))

/-- The candidate test of `simplify_reference_polygons`
(src/data/functions/align_base.py lines 83-86): rows of the working frame
whose *geometry* lies within `max_merge_distance` of the seed's centroid
(`simplified_gdf.geometry.distance(base_polygon.centroid)`) and which
touch the seed. -/
def simplify_candidate {G : Type} (A : GeomAdapter G) (maxMergeDistance : ℚ)
    (base : G) (g : G) : Bool :=
  decide (A.distGP g (A.centroid base) ≤ maxMergeDistance) && A.touches g base

/-- The `while not simplified_gdf.empty` loop of
`simplify_reference_polygons` (src/data/functions/align_base.py lines
77-95), over (row id, geometry) pairs.  Candidates are filtered from the
whole working frame (which contains the seed row); the union of seed and
candidates is emitted; candidate rows and the seed row are dropped.  Each
pass removes at least the seed row, so fuel equal to the initial length
never runs out. -/
def simplify_loop {G : Type} (A : GeomAdapter G) (maxMergeDistance : ℚ) :
    ℕ → List (ℕ × G) → List G
  | 0, _ => []
  | _, [] => []
  | fuel + 1, (i, base) :: rest =>
      let w := (i, base) :: rest
      let cands := w.filter (fun q => simplify_candidate A maxMergeDistance base q.2)
      let merged := A.unionAll (base :: cands.map Prod.snd)
      merged ::
        simplify_loop A maxMergeDistance fuel
          (rest.filter (fun q =>
            decide (q.1 ∉ cands.map Prod.fst) && decide (q.1 ≠ i)))

/-- `simplify_reference_polygons` (src/data/functions/align_base.py lines
58-100). -/
def simplify_reference_polygons {G : Type} (A : GeomAdapter G) (maxMergeDistance : ℚ)
    (w : List (ℕ × G)) : List G :=
  simplify_loop A maxMergeDistance w.length w

/-- The clustering pass as claim C6 words it: candidates are the
*remaining* polygons whose *centroid* lies within `max_merge_distance` of
the seed's centroid and which touch the seed. -/
def simplify_claim_loop {G : Type} (A : GeomAdapter G) (maxMergeDistance : ℚ) :
    ℕ → List (ℕ × G) → List G
  | 0, _ => []
  | _, [] => []
  | fuel + 1, (_, base) :: rest =>
      let cands := rest.filter (fun q =>
        decide (A.distPP (A.centroid q.2) (A.centroid base) ≤ maxMergeDistance) &&
          A.touches q.2 base)
      let merged := A.unionAll (base :: cands.map Prod.snd)
      merged ::
        simplify_claim_loop A maxMergeDistance fuel
          (rest.filter (fun q => decide (q.1 ∉ cands.map Prod.fst)))

/-- The clustering pass as the counterexample to C6 forces it to be
amended: candidates are the remaining polygons whose *geometry* (nearest
point) lies within `max_merge_distance` of the seed's centroid and which
touch the seed. -/
def simplify_amended_loop {G : Type} (A : GeomAdapter G) (maxMergeDistance : ℚ) :
    ℕ → List (ℕ × G) → List G
  | 0, _ => []
  | _, [] => []
  | fuel + 1, (_, base) :: rest =>
      let cands := rest.filter (fun q => simplify_candidate A maxMergeDistance base q.2)
      let merged := A.unionAll (base :: cands.map Prod.snd)
      merged ::
        simplify_amended_loop A maxMergeDistance fuel
          (rest.filter (fun q => decide (q.1 ∉ cands.map Prod.fst)))

/-- `find_nearest_address` (src/data/functions/asign5.py lines 28-66):
query the bounding-box index with the roof's bounds, fall back to the
whole address set when no candidate is returned, then take the first
address attaining the minimum distance to the roof (`idxmin`).  Returns
the chosen address's row id and the distance. -/
def find_nearest_address {G : Type} (A : GeomAdapter G) (roof : G)
    (addresses : List (ℕ × G)) : Option (ℕ × ℚ) :=
  let cands := addresses.filter (fun a => Box.overlaps (A.bounds a.2) (A.bounds roof))
  let cands := if cands.isEmpty then addresses else cands
  (argminFirst (fun a => A.dist a.2 roof) cands).map (fun p => (p.1.1, p.2))

/-- The nearest-address search as the spec's CandidateIndex contract
(spec §4.2) would have it behave: an exhaustive scan of the whole address
set. -/
def spec_nearest_full {G : Type} (A : GeomAdapter G) (roof : G)
    (addresses : List (ℕ × G)) : Option (ℕ × ℚ) :=
  (argminFirst (fun a => A.dist a.2 roof) addresses).map (fun p => (p.1.1, p.2))

/-- `process_chunk` (src/data/functions/asign5.py lines 68-85): map the
per-roof search over a chunk of roof ids, producing one keyed result per
roof. -/
def process_chunk {G : Type} (A : GeomAdapter G) (roofs : ℕ → G)
    (addresses : List (ℕ × G)) (chunk : List ℕ) : List (ℕ × Option (ℕ × ℚ)) :=
  chunk.map (fun i => (i, find_nearest_address A (roofs i) addresses))

/-- The result-merge loop of src/data/functions/asign5.py lines 152-160:
each keyed result is written into the output frame at its own roof id
(`output_gdf.at[roof_idx, ...] = ...`), later writes overwriting earlier
ones. -/
def aggregate_results {R : Type} (rs : List (ℕ × R)) : ℕ → Option R :=
  rs.foldl (fun m p => Function.update m p.1 (some p.2)) (fun _ => none)

/-- The chunked coordinator of src/data/functions/asign5.py lines 128-160:
process every chunk, concatenate chunk results in arrival order
(`pool.imap_unordered` + `results.extend`), then merge keyed results into
the output. -/
def run_pipeline {G : Type} (A : GeomAdapter G) (roofs : ℕ → G)
    (addresses : List (ℕ × G)) (chunks : List (List ℕ)) :
    ℕ → Option (Option (ℕ × ℚ)) :=
  aggregate_results ((chunks.map (process_chunk A roofs addresses)).flatten)

/-- Bounding box of a chunk of features (`total_bounds`,
src/data/functions/divpar6.py line 112); `none` for an empty chunk. -/
def chunk_total_bounds {G : Type} (A : GeomAdapter G) (chunk : List (ℕ × G)) :
    Option Box :=
  match chunk.map (fun t => A.bounds t.2) with
  | [] => none
  | b :: bs => some (bs.foldl Box.join b)

/-- The spatial pre-filter of `process_intersection_from_file`
(src/data/functions/divpar6.py line 113): parcels whose extent overlaps
the chunk's total bounds (`parcelles_gdf.cx[minx:maxx, miny:maxy]`; for
the rectangle geometries used at test points, geometry/extent overlap
against a box coincide). -/
def relevant_parcelles {G : Type} (A : GeomAdapter G) (parcelles : List (ℕ × G))
    (chunk : List (ℕ × G)) : List (ℕ × G) :=
  match chunk_total_bounds A chunk with
  | none => []
  | some b => parcelles.filter (fun p => Box.overlaps (A.bounds p.2) b)

/-- `process_intersection_from_file` (src/data/functions/divpar6.py lines
94-157), exception paths aside: spatially filter the parcels, return
empty on no relevant parcel, overlay the chunk with the relevant parcels
(one row per intersecting roof-parcel pair, geometry their intersection),
then drop non-polygonal rows and empty geometries.  Each feature is a
(roof id, geometry) pair. -/
def process_intersection {G : Type} (A : GeomAdapter G) (parcelles : List (ℕ × G))
    (chunk : List (ℕ × G)) : List (ℕ × G) :=
  let rel := relevant_parcelles A parcelles chunk
  if rel.isEmpty then []
  else
    let res := (chunk.map (fun t =>
      rel.filterMap (fun p =>
        if A.intersects t.2 p.2 then some (t.1, A.interGeom t.2 p.2) else none))).flatten
    let res := res.filter (fun r => A.isPoly2D r.2)
    res.filter (fun r => !(A.isEmptyG r.2))

/-- `divide_roofs_by_parcelles` (src/data/functions/divpar6.py lines
172-344), modelled for exception-free execution: all chunks are processed
and their results concatenated; the failed-chunk list (populated only by
worker exceptions or timeouts, which a pure embedding cannot raise) is
empty, and the source maintains *no* invalid-geometry report of any kind
(rows with empty or non-polygonal geometry are filtered out of a chunk's
result with only a console print, divpar6.py lines 136-148). -/
def divide_roofs_by_parcelles {G : Type} (A : GeomAdapter G)
    (parcelles : List (ℕ × G)) (chunks : List (List (ℕ × G))) :
    List (ℕ × G) × List ℕ :=
  ((chunks.map (process_intersection A parcelles)).flatten, [])

/-! ### The concrete rectangle model

An executable `GeomAdapter` instance over `MRect`, used to evaluate the
embedded code at concrete inputs.  All operations are exact for the
shapes appearing in the witnesses and counterexamples below (disjoint or
edge-sharing axis-aligned rectangles and degenerate point-rectangles),
with distances represented by their squares. -/

/-- Signed area of one rectangle. -/
def Rect.rarea (r : Rect) : ℚ := (r.x2 - r.x1) * (r.y2 - r.y1)

/-- Centre of one rectangle. -/
def Rect.cx (r : Rect) : ℚ := (r.x1 + r.x2) / 2

/-- Centre of one rectangle. -/
def Rect.cy (r : Rect) : ℚ := (r.y1 + r.y2) / 2

/-- Closed-set intersection test for two rectangles. -/
def Rect.closedInter (r s : Rect) : Bool :=
  decide (r.x1 ≤ s.x2) && decide (s.x1 ≤ r.x2) &&
  decide (r.y1 ≤ s.y2) && decide (s.y1 ≤ r.y2)

/-- Open-set (interior) intersection test for two rectangles. -/
def Rect.openInter (r s : Rect) : Bool :=
  decide (r.x1 < s.x2) && decide (s.x1 < r.x2) &&
  decide (r.y1 < s.y2) && decide (s.y1 < r.y2)

/-- Clipped rectangle of a closed intersection, `none` when disjoint. -/
def Rect.interOpt (r s : Rect) : Option Rect :=
  if Rect.closedInter r s then
    some ⟨max r.x1 s.x1, max r.y1 s.y1, min r.x2 s.x2, min r.y2 s.y2⟩
  else none

/-- Overlap area of two rectangles. -/
def Rect.interAreaPair (r s : Rect) : ℚ :=
  max 0 (min r.x2 s.x2 - max r.x1 s.x1) * max 0 (min r.y2 s.y2 - max r.y1 s.y1)

/-- Squared Euclidean distance from a point to a rectangle. -/
def Rect.gapPoint (r : Rect) (p : ℚ × ℚ) : ℚ :=
  max 0 (max (r.x1 - p.1) (p.1 - r.x2)) ^ 2 +
    max 0 (max (r.y1 - p.2) (p.2 - r.y2)) ^ 2

/-- Squared Euclidean distance between two rectangles. -/
def Rect.gapRect (r s : Rect) : ℚ :=
  max 0 (max (s.x1 - r.x2) (r.x1 - s.x2)) ^ 2 +
    max 0 (max (s.y1 - r.y2) (r.y1 - s.y2)) ^ 2

/-- Nearest point of a rectangle to a point (clamp into the rectangle). -/
def Rect.clampPt (r : Rect) (p : ℚ × ℚ) : ℚ × ℚ :=
  (min (max p.1 r.x1) r.x2, min (max p.2 r.y1) r.y2)

/-- Bounding box of one rectangle. -/
def Rect.box (r : Rect) : Box := ⟨r.x1, r.y1, r.x2, r.y2⟩

/-- Shift of one rectangle. -/
def Rect.shift (r : Rect) (dx dy : ℚ) : Rect :=
  ⟨r.x1 + dx, r.y1 + dy, r.x2 + dx, r.y2 + dy⟩

/-- Minimum of a rational list, 0 for the empty list. -/
def qminD : List ℚ → ℚ
  | [] => 0
  | x :: xs => xs.foldl min x

/-- Total area of a multi-rectangle (exact when parts are disjoint). -/
def mrArea (g : MRect) : ℚ := (g.map Rect.rarea).sum

/-- Area-weighted centroid of a multi-rectangle (exact when parts are
disjoint); (0,0) for a degenerate total area. -/
def mrCentroid (g : MRect) : ℚ × ℚ :=
  let a := mrArea g
  if a = 0 then (0, 0)
  else ((g.map (fun r => Rect.rarea r * Rect.cx r)).sum / a,
        (g.map (fun r => Rect.rarea r * Rect.cy r)).sum / a)

/-- Closed intersection test for multi-rectangles. -/
def mrIntersects (g h : MRect) : Bool :=
  g.any (fun r => h.any (fun s => Rect.closedInter r s))

/-- Interior intersection test for multi-rectangles. -/
def mrOpenInter (g h : MRect) : Bool :=
  g.any (fun r => h.any (fun s => Rect.openInter r s))

/-- Intersection area of two multi-rectangles (exact when each side's
parts are disjoint). -/
def mrInterArea (g h : MRect) : ℚ :=
  ((g.map (fun r => h.map (fun s => Rect.interAreaPair r s))).flatten).sum

/-- Intersection geometry of two multi-rectangles. -/
def mrInterGeom (g h : MRect) : MRect :=
  (g.map (fun r => h.filterMap (fun s => Rect.interOpt r s))).flatten

/-- Squared distance from a multi-rectangle to a point. -/
def mrDistGP (g : MRect) (p : ℚ × ℚ) : ℚ := qminD (g.map (fun r => Rect.gapPoint r p))

/-- Squared distance between two multi-rectangles. -/
def mrDist (g h : MRect) : ℚ :=
  qminD ((g.map (fun r => h.map (fun s => Rect.gapRect r s))).flatten)

/-- Nearest point of a multi-rectangle to a point. -/
def mrNearestPointOn (g : MRect) (p : ℚ × ℚ) : ℚ × ℚ :=
  match argminFirst (fun r => Rect.gapPoint r p) g with
  | none => p
  | some (r, _) => Rect.clampPt r p

/-- Bounding box of a multi-rectangle; a degenerate box at the origin for
the empty geometry. -/
def mrBounds : MRect → Box
  | [] => ⟨0, 0, 0, 0⟩
  | r :: rs => (rs.map Rect.box).foldl Box.join (Rect.box r)

/-- One absorption pass of connected-component extraction: move every
remaining rectangle that meets the current component into it; repeat on
fuel. -/
def extract_component : ℕ → MRect → List Rect → MRect × List Rect
  | 0, comp, rest => (comp, rest)
  | fuel + 1, comp, rest =>
      let newly := rest.filter (fun r => comp.any (fun c => Rect.closedInter c r))
      if newly.isEmpty then (comp, rest)
      else
        extract_component fuel (comp ++ newly)
          (rest.filter (fun r => !(comp.any (fun c => Rect.closedInter c r))))

/-- Split a rectangle list into connected components under closed
intersection, in order of first appearance. -/
def components_go : ℕ → List Rect → List MRect
  | 0, _ => []
  | _, [] => []
  | fuel + 1, r :: rs =>
      let cr := extract_component (fuel + 1) [r] rs
      cr.1 :: components_go fuel cr.2

/-- Decomposition of a multi-rectangle into its connected parts: the model
of `unary_union` followed by taking `.geoms` of a multi-part result. -/
def rcomponents (l : List Rect) : List MRect := components_go l.length l

/-- The concrete adapter: geometry = finite unions of axis-aligned
rational rectangles, distances squared. -/
def RA : GeomAdapter MRect where
  area := mrArea
  centroid := mrCentroid
  intersects := mrIntersects
  interArea := mrInterArea
  interGeom := mrInterGeom
  distPP := fun p q => (p.1 - q.1) ^ 2 + (p.2 - q.2) ^ 2
  distGP := mrDistGP
  dist := mrDist
  nearestPointOn := mrNearestPointOn
  translate := fun g dx dy => g.map (fun r => Rect.shift r dx dy)
  touches := fun g h => mrIntersects g h && !(mrOpenInter g h)
  unionAll := List.flatten
  decompose := rcomponents
  bounds := mrBounds
  isEmptyG := List.isEmpty
  isPoly2D := fun g => !g.isEmpty && g.all (fun r => decide (r.x1 < r.x2) && decide (r.y1 < r.y2))

/-! ### Properties of the first-minimum scan -/

theorem foldl_minStep_some {α : Type} (f : α → ℚ) :
    ∀ (l : List α) (b : α) (m : ℚ),
      l.foldl (minStep f) (some (b, m)) =
        (argminFirst f l).elim (some (b, m))
          (fun yw => if yw.2 < m then some yw else some (b, m)) := by
  intro l
  induction l with
  | nil => intro b m; simp [argminFirst]
  | cons z zs ih =>
      intro b m
      have hA : argminFirst f (z :: zs) = zs.foldl (minStep f) (some (z, f z)) := rfl
      have hL : (z :: zs).foldl (minStep f) (some (b, m)) =
          zs.foldl (minStep f) (if f z < m then some (z, f z) else some (b, m)) := rfl
      rw [hL, hA, ih z (f z)]
      by_cases hzm : f z < m
      · rw [if_pos hzm, ih z (f z)]
        rcases hzs : argminFirst f zs with _ | ⟨y, w⟩
        · simp only [Option.elim]
          rw [if_pos hzm]
        · simp only [Option.elim]
          by_cases hwz : w < f z
          · rw [if_pos hwz]
            simp only [Option.elim]
            rw [if_pos (lt_trans hwz hzm)]
          · rw [if_neg hwz]
            simp only [Option.elim]
            rw [if_pos hzm]
      · rw [if_neg hzm, ih b m]
        rcases hzs : argminFirst f zs with _ | ⟨y, w⟩
        · simp only [Option.elim]
          rw [if_neg hzm]
        · simp only [Option.elim]
          by_cases hwz : w < f z
          · rw [if_pos hwz]
          · rw [if_neg hwz]
            simp only [Option.elim]
            have hwm : ¬ w < m := fun hc => hwz (lt_of_lt_of_le hc (le_of_not_lt hzm))
            rw [if_neg hwm, if_neg hzm]

theorem argminFirst_cons {α : Type} (f : α → ℚ) (z : α) (zs : List α) :
    argminFirst f (z :: zs) =
      (argminFirst f zs).elim (some (z, f z))
        (fun yw => if yw.2 < f z then some yw else some (z, f z)) := by
  have : argminFirst f (z :: zs) = zs.foldl (minStep f) (some (z, f z)) := rfl
  rw [this, foldl_minStep_some]

theorem argminFirst_none_iff {α : Type} (f : α → ℚ) (l : List α) :
    argminFirst f l = none ↔ l = [] := by
  cases l with
  | nil => simp [argminFirst]
  | cons z zs =>
      rw [argminFirst_cons]
      rcases hzs : argminFirst f zs with _ | ⟨y, w⟩
      · simp
      · simp only [Option.elim]
        constructor
        · intro h
          split at h <;> exact absurd h (by simp)
        · intro h; exact absurd h (by simp)

theorem argminFirst_mem_val {α : Type} (f : α → ℚ) :
    ∀ (l : List α) (y : α) (w : ℚ), argminFirst f l = some (y, w) → y ∈ l ∧ w = f y := by
  intro l
  induction l with
  | nil => intro y w h; exact absurd h (by simp [argminFirst])
  | cons z zs ih =>
      intro y w h
      rw [argminFirst_cons] at h
      rcases hzs : argminFirst f zs with _ | ⟨y', w'⟩ <;> rw [hzs] at h
      · simp only [Option.elim] at h
        injection h with h
        injection h with h1 h2
        subst h1
        exact ⟨List.mem_cons_self .., h2.symm⟩
      · simp only [Option.elim] at h
        by_cases hlt : w' < f z
        · rw [if_pos hlt] at h
          injection h with h
          injection h with h1 h2
          obtain ⟨hmem, hval⟩ := ih y' w' hzs
          subst h1; subst h2
          exact ⟨List.mem_cons_of_mem z hmem, hval⟩
        · rw [if_neg hlt] at h
          injection h with h
          injection h with h1 h2
          subst h1
          exact ⟨List.mem_cons_self z zs, h2.symm⟩

theorem argminFirst_min {α : Type} (f : α → ℚ) :
    ∀ (l : List α) (y : α) (w : ℚ), argminFirst f l = some (y, w) →
      ∀ u ∈ l, w ≤ f u := by
  intro l
  induction l with
  | nil => intro y w h; exact absurd h (by simp [argminFirst])
  | cons z zs ih =>
      intro y w h u hu
      rw [argminFirst_cons] at h
      rcases hzs : argminFirst f zs with _ | ⟨y', w'⟩ <;> rw [hzs] at h
      · simp only [Option.elim] at h
        injection h with h
        injection h with h1 h2
        have hz : zs = [] := (argminFirst_none_iff f zs).mp hzs
        subst hz
        rcases List.mem_singleton.mp hu with rfl
        exact le_of_eq h2.symm
      · simp only [Option.elim] at h
        by_cases hlt : w' < f z
        · rw [if_pos hlt] at h
          injection h with h
          injection h with h1 h2
          subst h2
          rcases List.mem_cons.mp hu with rfl | hmem
          · exact le_of_lt hlt
          · exact ih y' w' hzs u hmem
        · rw [if_neg hlt] at h
          injection h with h
          injection h with h1 h2
          subst h2
          rcases List.mem_cons.mp hu with rfl | hmem
          · exact le_refl _
          · exact le_trans (le_of_not_lt hlt) (ih y' w' hzs u hmem)

theorem argminFirst_eq_some_iff {α : Type} (f : α → ℚ) (l : List α) (x : α) (v : ℚ) :
    argminFirst f l = some (x, v) ↔
      v = f x ∧ ∃ l₁ l₂, l = l₁ ++ x :: l₂ ∧
        (∀ z ∈ l₁, f x < f z) ∧ (∀ z ∈ l₂, f x ≤ f z) := by
  constructor
  · intro h
    induction l generalizing x v with
    | nil => exact absurd h (by simp [argminFirst])
    | cons z zs ih =>
        rw [argminFirst_cons] at h
        rcases hzs : argminFirst f zs with _ | ⟨y', w'⟩ <;> rw [hzs] at h
        · simp only [Option.elim] at h
          injection h with h
          injection h with h1 h2
          have hz : zs = [] := (argminFirst_none_iff f zs).mp hzs
          subst hz; subst h1
          exact ⟨h2.symm, [], [], rfl, by simp, by simp⟩
        · simp only [Option.elim] at h
          by_cases hlt : w' < f z
          · rw [if_pos hlt] at h
            injection h with h
            injection h with h1 h2
            subst h1; subst h2
            obtain ⟨hv, l₁, l₂, hsplit, h₁, h₂⟩ := ih _ _ hzs
            refine ⟨hv, z :: l₁, l₂, by rw [hsplit]; rfl, ?_, h₂⟩
            intro u hu
            rcases List.mem_cons.mp hu with rfl | hmem
            · rw [← hv]; exact hlt
            · exact h₁ u hmem
          · rw [if_neg hlt] at h
            injection h with h
            injection h with h1 h2
            subst h1
            refine ⟨h2.symm, [], zs, rfl, by simp, ?_⟩
            intro u hu
            exact le_trans (le_of_not_lt hlt) (argminFirst_min f zs y' w' hzs u hu)
  · rintro ⟨hv, l₁, l₂, hsplit, h₁, h₂⟩
    subst hsplit; subst hv
    induction l₁ with
    | nil =>
        have : argminFirst f (x :: l₂) = l₂.foldl (minStep f) (some (x, f x)) := rfl
        rw [List.nil_append, this, foldl_minStep_some]
        rcases hl₂ : argminFirst f l₂ with _ | ⟨y', w'⟩
        · rfl
        · simp only [Option.elim]
          obtain ⟨hmem, hval⟩ := argminFirst_mem_val f l₂ y' w' hl₂
          have : ¬ w' < f x := not_lt_of_le (hval ▸ h₂ y' hmem)
          rw [if_neg this]
    | cons z l₁' ih =>
        have hz : f x < f z := h₁ z (List.mem_cons_self z l₁')
        have htail : ∀ u ∈ l₁', f x < f u := fun u hu => h₁ u (List.mem_cons_of_mem z hu)
        have hrec := ih htail
        have : argminFirst f (z :: (l₁' ++ x :: l₂)) =
            (l₁' ++ x :: l₂).foldl (minStep f) (some (z, f z)) := rfl
        rw [List.cons_append, this, foldl_minStep_some, hrec]
        simp only [Option.elim]
        rw [if_pos hz]

/-! ### Properties of the guarded strict-maximum scan -/

theorem maxFold_spec {α : Type} (p : α → Bool) (f : α → ℚ) :
    ∀ (l : List α) (b0 : Option α) (v0 : ℚ),
      (l.foldl (maxStep p f) (b0, v0) = (b0, v0) ∧ ∀ x ∈ l, p x = true → f x ≤ v0) ∨
      (∃ r l₁ l₂, l = l₁ ++ r :: l₂ ∧ p r = true ∧ v0 < f r ∧
        l.foldl (maxStep p f) (b0, v0) = (some r, f r) ∧
        (∀ x ∈ l₁, p x = true → f x < f r) ∧
        (∀ x ∈ l₂, p x = true → f x ≤ f r)) := by
  intro l
  induction l with
  | nil => intro b0 v0; left; exact ⟨rfl, by simp⟩
  | cons x xs ih =>
      intro b0 v0
      have hstep : (x :: xs).foldl (maxStep p f) (b0, v0) =
          xs.foldl (maxStep p f) (maxStep p f (b0, v0) x) := rfl
      by_cases hp : p x = true
      · by_cases hgt : f x > v0
        · have hacc : maxStep p f (b0, v0) x = (some x, f x) := by
            simp [maxStep, hp, hgt]
          rcases ih (some x) (f x) with ⟨heq, hb⟩ | ⟨r, l₁, l₂, hsplit, hpr, hvr, heq, h₁, h₂⟩
          · right
            exact ⟨x, [], xs, rfl, hp, hgt, by rw [hstep, hacc]; exact heq, by simp,
              fun u hu hpu => hb u hu hpu⟩
          · right
            refine ⟨r, x :: l₁, l₂, by rw [hsplit, List.cons_append], hpr, lt_trans hgt hvr,
              by rw [hstep, hacc]; exact heq, ?_, h₂⟩
            intro u hu hpu
            rcases List.mem_cons.mp hu with rfl | hm
            · exact hvr
            · exact h₁ u hm hpu
        · have hacc : maxStep p f (b0, v0) x = (b0, v0) := by
            simp [maxStep, hp, hgt]
          have hfx : f x ≤ v0 := le_of_not_lt hgt
          rcases ih b0 v0 with ⟨heq, hb⟩ | ⟨r, l₁, l₂, hsplit, hpr, hvr, heq, h₁, h₂⟩
          · left
            refine ⟨by rw [hstep, hacc]; exact heq, ?_⟩
            intro u hu hpu
            rcases List.mem_cons.mp hu with rfl | hm
            · exact hfx
            · exact hb u hm hpu
          · right
            refine ⟨r, x :: l₁, l₂, by rw [hsplit, List.cons_append], hpr, hvr,
              by rw [hstep, hacc]; exact heq, ?_, h₂⟩
            intro u hu hpu
            rcases List.mem_cons.mp hu with rfl | hm
            · exact lt_of_le_of_lt hfx hvr
            · exact h₁ u hm hpu
      · have hacc : maxStep p f (b0, v0) x = (b0, v0) := by
          simp [maxStep, hp]
        rcases ih b0 v0 with ⟨heq, hb⟩ | ⟨r, l₁, l₂, hsplit, hpr, hvr, heq, h₁, h₂⟩
        · left
          refine ⟨by rw [hstep, hacc]; exact heq, ?_⟩
          intro u hu hpu
          rcases List.mem_cons.mp hu with rfl | hm
          · exact absurd hpu hp
          · exact hb u hm hpu
        · right
          refine ⟨r, x :: l₁, l₂, by rw [hsplit, List.cons_append], hpr, hvr,
            by rw [hstep, hacc]; exact heq, ?_, h₂⟩
          intro u hu hpu
          rcases List.mem_cons.mp hu with rfl | hm
          · exact absurd hpu hp
          · exact h₁ u hm hpu

theorem maxFold_snd {α : Type} (p : α → Bool) (f : α → ℚ) :
    ∀ (l : List α) (b0 : Option α) (v0 : ℚ),
      (l.foldl (maxStep p f) (b0, v0)).2 = ((l.filter p).map f).foldl max v0 := by
  intro l
  induction l with
  | nil => intro b0 v0; rfl
  | cons x xs ih =>
      intro b0 v0
      have hrw : ((x :: xs).foldl (maxStep p f) (b0, v0)).2 =
          (xs.foldl (maxStep p f) (maxStep p f (b0, v0) x)).2 := rfl
      have hM := ih (maxStep p f (b0, v0) x).1 (maxStep p f (b0, v0) x).2
      rw [hrw, Prod.mk.eta] at *
      rw [hM]
      by_cases hp : p x = true
      · have hsnd : (maxStep p f (b0, v0) x).2 = max v0 (f x) := by
          simp only [maxStep, hp, if_true]
          by_cases hgt : f x > v0
          · rw [if_pos hgt]; exact (max_eq_right (le_of_lt hgt)).symm
          · rw [if_neg hgt]; exact (max_eq_left (le_of_not_lt hgt)).symm
        rw [hsnd, List.filter_cons_of_pos hp, List.map_cons, List.foldl_cons]
      · have hsnd : (maxStep p f (b0, v0) x).2 = v0 := by
          simp [maxStep, hp]
        rw [hsnd, List.filter_cons_of_neg (by simp [hp])]

/-- The running best ratio computed by the source's scan equals the spec's
best overlap ratio. -/
theorem align_bestOverlap_snd {G : Type} (A : GeomAdapter G) (t : G) (refs : List G) :
    (align_bestOverlap A t refs).2 = spec_bestOverlapRatio A t refs :=
  maxFold_snd (fun ref => A.intersects t ref) (align_ratio A t) refs none 0

theorem foldl_max_init (l : List ℚ) : ∀ v0 : ℚ, v0 ≤ l.foldl max v0 := by
  induction l with
  | nil => intro v0; exact le_refl _
  | cons x xs ih => intro v0; exact le_trans (le_max_left v0 x) (ih (max v0 x))

theorem foldl_max_mem_le (l : List ℚ) : ∀ (v0 x : ℚ), x ∈ l → x ≤ l.foldl max v0 := by
  induction l with
  | nil => intro v0 x h; cases h
  | cons y ys ih =>
      intro v0 x h
      rcases List.mem_cons.mp h with rfl | hm
      · exact le_trans (le_max_right v0 x) (foldl_max_init ys (max v0 x))
      · exact ih (max v0 y) x hm

theorem foldl_max_cases (l : List ℚ) : ∀ v0 : ℚ, l.foldl max v0 = v0 ∨ l.foldl max v0 ∈ l := by
  induction l with
  | nil => intro v0; left; rfl
  | cons x xs ih =>
      intro v0
      rcases ih (max v0 x) with h | h
      · rcases max_choice v0 x with hm | hm
        · left; rw [List.foldl_cons, h, hm]
        · right; rw [List.foldl_cons, h, hm]; exact List.mem_cons_self ..
      · right; exact List.mem_cons_of_mem x h

theorem spec_bestOverlapRatio_nonneg {G : Type} (A : GeomAdapter G) (t : G)
    (refs : List G) : 0 ≤ spec_bestOverlapRatio A t refs :=
  foldl_max_init _ 0

theorem spec_bestOverlapRatio_ge {G : Type} (A : GeomAdapter G) (t : G) (refs : List G) :
    ∀ r ∈ refs, A.intersects t r = true →
      align_ratio A t r ≤ spec_bestOverlapRatio A t refs := by
  intro r hr hint
  exact foldl_max_mem_le _ 0 _
    (List.mem_map.mpr ⟨r, List.mem_filter.mpr ⟨hr, hint⟩, rfl⟩)

theorem spec_bestOverlapRatio_cases {G : Type} (A : GeomAdapter G) (t : G)
    (refs : List G) :
    spec_bestOverlapRatio A t refs = 0 ∨
      ∃ r ∈ refs, A.intersects t r = true ∧
        spec_bestOverlapRatio A t refs = align_ratio A t r := by
  rcases foldl_max_cases ((refs.filter (fun ref => A.intersects t ref)).map
      (align_ratio A t)) 0 with h | h
  · left; exact h
  · right
    obtain ⟨r, hrf, hval⟩ := List.mem_map.mp h
    obtain ⟨hrm, hri⟩ := List.mem_filter.mp hrf
    exact ⟨r, hrm, hri, hval.symm⟩

/-! ### Branch structure of the per-target alignment -/

/-- Case analysis of the source's best-overlap scan: either no intersecting
reference has a strictly positive ratio and the scan returns
`(None, 0.0)`, or the scan returns the first reference attaining the
maximal ratio, which is strictly positive. -/
theorem align_bestOverlap_cases {G : Type} (A : GeomAdapter G) (t : G) (refs : List G) :
    (align_bestOverlap A t refs = (none, 0) ∧
      ∀ r ∈ refs, A.intersects t r = true → align_ratio A t r ≤ 0) ∨
    (∃ r l₁ l₂, refs = l₁ ++ r :: l₂ ∧ A.intersects t r = true ∧
      0 < align_ratio A t r ∧
      align_bestOverlap A t refs = (some r, align_ratio A t r) ∧
      (∀ x ∈ l₁, A.intersects t x = true → align_ratio A t x < align_ratio A t r) ∧
      (∀ x ∈ l₂, A.intersects t x = true → align_ratio A t x ≤ align_ratio A t r)) :=
  maxFold_spec (fun ref => A.intersects t ref) (align_ratio A t) refs none 0

/-- The fallback branch never returns status `aligned`. -/
theorem align_fallback_ne_aligned {G : Type} (A : GeomAdapter G) (maxDistance : ℚ)
    (refs : List G) (t : G) :
    (align_fallback A maxDistance refs t).alignment ≠ AlignStatus.aligned := by
  cases h : align_nearest A t refs with
  | none => simp [align_fallback, h]
  | some rd =>
      obtain ⟨r, d⟩ := rd
      by_cases hd : d ≤ maxDistance <;> simp [align_fallback, h, hd]

/-- When the scan finds no positive-ratio intersecting reference, the
alignment takes the fallback branch. -/
theorem align_one_of_none {G : Type} (A : GeomAdapter G)
    (maxDistance minOverlapRatio : ℚ) (refs : List G) (t : G)
    (h : align_bestOverlap A t refs = (none, 0)) :
    align_one A maxDistance minOverlapRatio refs t = align_fallback A maxDistance refs t := by
  unfold align_one align_one_from
  rw [h]

/-- When the scan finds a best match, the alignment branches on
`best_overlap_ratio >= min_overlap_ratio`. -/
theorem align_one_of_some {G : Type} (A : GeomAdapter G)
    (maxDistance minOverlapRatio : ℚ) (refs : List G) (t : G) (r : G) (v : ℚ)
    (h : align_bestOverlap A t refs = (some r, v)) :
    align_one A maxDistance minOverlapRatio refs t =
      if v ≥ minOverlapRatio then
        { alignment := .aligned, ref_area := A.area r, overlap := v, distance := none,
          geometry := t }
      else align_fallback A maxDistance refs t := by
  unfold align_one align_one_from
  rw [h]

/-- C1, counterexample.  The claim asserts status `Aligned` *exactly when*
the best overlap ratio over intersecting references is at least
`min_overlap_ratio`.  Take `min_overlap_ratio = 0`, a unit-square target
and one reference sharing only an edge with it: the reference intersects
the target with intersection area 0, so the best overlap ratio is 0 and
is ≥ `min_overlap_ratio`, yet the source (which only tracks a match when
its ratio strictly exceeds the running best, initialised to 0.0) keeps
`best_match = None` and the target ends `not_aligned`. -/
theorem C1_counterexample :
    ¬ ((align_one RA 0 0 [[(⟨1, 0, 2, 1⟩ : Rect)]] [(⟨0, 0, 1, 1⟩ : Rect)]).alignment =
          AlignStatus.aligned ↔
        (0 : ℚ) ≤ spec_bestOverlapRatio RA [(⟨0, 0, 1, 1⟩ : Rect)] [[(⟨1, 0, 2, 1⟩ : Rect)]]) := by
  decide

/-- C1, amended: status is `Aligned` exactly when the best overlap ratio
is *strictly positive* and at least `min_overlap_ratio`; and when
`Aligned`, the output geometry is the input unchanged, the recorded
overlap is the best overlap ratio, no distance is recorded, and the
recorded area is the area of an intersecting reference realising the best
ratio. -/
theorem C1_aligned_iff {G : Type} (A : GeomAdapter G) (maxDistance minOverlapRatio : ℚ)
    (refs : List G) (t : G) :
    ((align_one A maxDistance minOverlapRatio refs t).alignment = AlignStatus.aligned ↔
      0 < spec_bestOverlapRatio A t refs ∧
        minOverlapRatio ≤ spec_bestOverlapRatio A t refs) ∧
    ((align_one A maxDistance minOverlapRatio refs t).alignment = AlignStatus.aligned →
      (align_one A maxDistance minOverlapRatio refs t).geometry = t ∧
      (align_one A maxDistance minOverlapRatio refs t).overlap =
        spec_bestOverlapRatio A t refs ∧
      (align_one A maxDistance minOverlapRatio refs t).distance = none ∧
      ∃ m ∈ refs, A.intersects t m = true ∧
        align_ratio A t m = spec_bestOverlapRatio A t refs ∧
        (align_one A maxDistance minOverlapRatio refs t).ref_area = A.area m) := by
  rcases align_bestOverlap_cases A t refs with ⟨heq, hall⟩ |
    ⟨r, l₁, l₂, hsplit, hint, hpos, heq, h₁, h₂⟩
  · have hspec0 : spec_bestOverlapRatio A t refs = 0 := by
      have hsnd := align_bestOverlap_snd A t refs
      rw [heq] at hsnd
      exact hsnd.symm
    have hone := align_one_of_none A maxDistance minOverlapRatio refs t heq
    constructor
    · constructor
      · intro h
        rw [hone] at h
        exact absurd h (align_fallback_ne_aligned A maxDistance refs t)
      · rintro ⟨hp, _⟩
        rw [hspec0] at hp
        exact absurd hp (lt_irrefl 0)
    · intro h
      rw [hone] at h
      exact absurd h (align_fallback_ne_aligned A maxDistance refs t)
  · have hv : align_ratio A t r = spec_bestOverlapRatio A t refs := by
      have hsnd := align_bestOverlap_snd A t refs
      rw [heq] at hsnd
      exact hsnd
    have hmem : r ∈ refs := by
      rw [hsplit]
      exact List.mem_append.mpr (Or.inr (List.mem_cons_self ..))
    have hone := align_one_of_some A maxDistance minOverlapRatio refs t r
      (align_ratio A t r) heq
    by_cases hge : align_ratio A t r ≥ minOverlapRatio
    · rw [if_pos hge] at hone
      constructor
      · rw [hone]
        simp only [true_iff]
        exact ⟨hv ▸ hpos, hv ▸ hge⟩
      · intro _
        rw [hone]
        exact ⟨rfl, hv, rfl, r, hmem, hint, hv, rfl⟩
    · rw [if_neg hge] at hone
      constructor
      · rw [hone]
        constructor
        · intro h
          exact absurd h (align_fallback_ne_aligned A maxDistance refs t)
        · rintro ⟨_, hle⟩
          rw [← hv] at hle
          exact absurd hle hge
      · intro h
        rw [hone] at h
        exact absurd h (align_fallback_ne_aligned A maxDistance refs t)

/-- C1 amended, witness at the spec's Scenario A: a (0,0)-(10,10) target
inside a (-5,-5)-(15,15) reference with `min_overlap_ratio = 0.5` is
`Aligned` with overlap ratio 1 and recorded reference area 400. -/
theorem C1_aligned_iff_witness :
    (align_one RA 0 (1/2) [[(⟨-5, -5, 15, 15⟩ : Rect)]] [(⟨0, 0, 10, 10⟩ : Rect)]).alignment =
        AlignStatus.aligned ∧
    (align_one RA 0 (1/2) [[(⟨-5, -5, 15, 15⟩ : Rect)]] [(⟨0, 0, 10, 10⟩ : Rect)]).geometry =
        [(⟨0, 0, 10, 10⟩ : Rect)] ∧
    (align_one RA 0 (1/2) [[(⟨-5, -5, 15, 15⟩ : Rect)]] [(⟨0, 0, 10, 10⟩ : Rect)]).overlap =
        spec_bestOverlapRatio RA [(⟨0, 0, 10, 10⟩ : Rect)] [[(⟨-5, -5, 15, 15⟩ : Rect)]] ∧
    (align_one RA 0 (1/2) [[(⟨-5, -5, 15, 15⟩ : Rect)]] [(⟨0, 0, 10, 10⟩ : Rect)]).ref_area =
        400 := by
  have h := (C1_aligned_iff RA 0 (1/2) [[(⟨-5, -5, 15, 15⟩ : Rect)]]
    [(⟨0, 0, 10, 10⟩ : Rect)]).2 (by decide)
  exact ⟨by decide, h.1, h.2.1, by decide⟩

/-- The nearest-reference scan selects the first (lowest-id) minimiser of
the centroid distance over the whole list. -/
theorem align_nearest_spec {G : Type} (A : GeomAdapter G) (t : G) (refs : List G)
    (r : G) (d : ℚ) (h : align_nearest A t refs = some (r, d)) :
    d = A.distPP (A.centroid t) (A.centroid r) ∧
    (∀ x ∈ refs, d ≤ A.distPP (A.centroid t) (A.centroid x)) ∧
    ∃ l₁ l₂, refs = l₁ ++ r :: l₂ ∧
      (∀ x ∈ l₁, d < A.distPP (A.centroid t) (A.centroid x)) := by
  have hiff := (argminFirst_eq_some_iff
    (fun ref => A.distPP (A.centroid t) (A.centroid ref)) refs r d).mp h
  obtain ⟨hv, l₁, l₂, hsplit, h₁, _⟩ := hiff
  refine ⟨hv, argminFirst_min _ refs r d h, l₁, l₂, hsplit, ?_⟩
  intro x hx
  rw [hv]
  exact h₁ x hx

/-- C4: both selection stages are deterministic with lowest-id
tie-breaking.  The `Aligned` stage returns an intersecting reference
whose ratio equals the best overlap ratio, with every reference of lower
id (earlier in the reference list) having a strictly smaller ratio; the
`Adjusted` stage scans the *entire* reference list and returns a
reference whose centroid distance is a global minimum over all
references, with every reference of lower id strictly farther.  Both
conclusions determine the selected reference uniquely from the indexed
reference family, independently of iteration or chunk order. -/
theorem C4_deterministic_selection {G : Type} (A : GeomAdapter G) (t : G)
    (refs : List G) :
    (∀ m v, align_bestOverlap A t refs = (some m, v) →
      A.intersects t m = true ∧ v = align_ratio A t m ∧
      v = spec_bestOverlapRatio A t refs ∧
      ∃ l₁ l₂, refs = l₁ ++ m :: l₂ ∧
        (∀ x ∈ l₁, A.intersects t x = true → align_ratio A t x < v) ∧
        (∀ x ∈ l₂, A.intersects t x = true → align_ratio A t x ≤ v)) ∧
    (∀ r d, align_nearest A t refs = some (r, d) →
      d = A.distPP (A.centroid t) (A.centroid r) ∧
      (∀ x ∈ refs, d ≤ A.distPP (A.centroid t) (A.centroid x)) ∧
      ∃ l₁ l₂, refs = l₁ ++ r :: l₂ ∧
        (∀ x ∈ l₁, d < A.distPP (A.centroid t) (A.centroid x))) := by
  constructor
  · intro m v h
    rcases align_bestOverlap_cases A t refs with ⟨heq, _⟩ |
      ⟨r, l₁, l₂, hsplit, hint, hpos, heq, h₁, h₂⟩
    · rw [heq] at h
      exact absurd (congrArg Prod.fst h) (by simp)
    · rw [heq] at h
      have hspec : align_ratio A t r = spec_bestOverlapRatio A t refs := by
        have hsnd := align_bestOverlap_snd A t refs
        rw [heq] at hsnd
        exact hsnd
      have hmv : m = r ∧ v = align_ratio A t r := by
        injection h with h1 h2
        injection h1 with h1
        exact ⟨h1.symm, h2.symm⟩
      obtain ⟨rfl, rfl⟩ := hmv
      exact ⟨hint, rfl, hspec, l₁, l₂, hsplit, h₁, h₂⟩
  · intro r d h
    exact align_nearest_spec A t refs r d h

/-- C4, witness: with a target square and two intersecting references of
ratios 1/4 and 1, the scan selects the second reference with the spec's
best ratio 1; the nearest scan selects the same reference at distance 0. -/
theorem C4_deterministic_selection_witness :
    (1 : ℚ) = spec_bestOverlapRatio RA [(⟨0, 0, 2, 2⟩ : Rect)]
        [[(⟨1, 1, 9, 9⟩ : Rect)], [(⟨0, 0, 2, 2⟩ : Rect)]] ∧
    (0 : ℚ) = RA.distPP (RA.centroid [(⟨0, 0, 2, 2⟩ : Rect)])
        (RA.centroid [(⟨0, 0, 2, 2⟩ : Rect)]) := by
  have h1 := (C4_deterministic_selection RA [(⟨0, 0, 2, 2⟩ : Rect)]
    [[(⟨1, 1, 9, 9⟩ : Rect)], [(⟨0, 0, 2, 2⟩ : Rect)]]).1
    [(⟨0, 0, 2, 2⟩ : Rect)] 1 (by decide)
  have h2 := (C4_deterministic_selection RA [(⟨0, 0, 2, 2⟩ : Rect)]
    [[(⟨1, 1, 9, 9⟩ : Rect)], [(⟨0, 0, 2, 2⟩ : Rect)]]).2
    [(⟨0, 0, 2, 2⟩ : Rect)] 0 (by decide)
  exact ⟨h1.2.2.1, h2.1⟩

/-- A fallback result carrying status `not_aligned` is exactly the
unchanged-geometry record with zeroed diagnostics. -/
theorem align_fallback_not_aligned_eq {G : Type} (A : GeomAdapter G) (maxDistance : ℚ)
    (refs : List G) (t : G)
    (h : (align_fallback A maxDistance refs t).alignment = AlignStatus.not_aligned) :
    align_fallback A maxDistance refs t =
      { alignment := .not_aligned, ref_area := 0, overlap := 0, distance := none,
        geometry := t } := by
  cases hn : align_nearest A t refs with
  | none => simp [align_fallback, hn]
  | some rd =>
      obtain ⟨r, d⟩ := rd
      by_cases hd : d ≤ maxDistance
      · rw [align_fallback, hn] at h
        simp [hd] at h
      · simp [align_fallback, hn, hd]

/-- C3: with an empty reference set every target resolves to
`not_aligned` (totally, with no error), the whole collection mapping to
unchanged-geometry records; and every `not_aligned` result, for any
reference set, is exactly the record with the input geometry unchanged,
recorded area 0, recorded overlap 0 and no recorded distance. -/
theorem C3_empty_refs_not_aligned {G : Type} (A : GeomAdapter G)
    (maxDistance minOverlapRatio : ℚ) :
    (∀ targets : List G,
      align_target_to_reference_inside A maxDistance minOverlapRatio targets [] =
        targets.map (fun t =>
          { alignment := .not_aligned, ref_area := 0, overlap := 0, distance := none,
            geometry := t })) ∧
    (∀ (refs : List G) (t : G),
      (align_one A maxDistance minOverlapRatio refs t).alignment =
          AlignStatus.not_aligned →
      align_one A maxDistance minOverlapRatio refs t =
        { alignment := .not_aligned, ref_area := 0, overlap := 0, distance := none,
          geometry := t }) := by
  constructor
  · intro targets
    have h1 : align_one A maxDistance minOverlapRatio ([] : List G) = fun t =>
        { alignment := .not_aligned, ref_area := 0, overlap := 0, distance := none,
          geometry := t } :=
      funext (fun t => rfl)
    unfold align_target_to_reference_inside
    rw [h1]
    have hf1 : (targets.map (fun t =>
        (⟨.not_aligned, 0, 0, none, t⟩ : MatchResult G))).filter
          (fun r => !(r.alignment == AlignStatus.not_aligned)) = [] := by
      rw [List.filter_eq_nil_iff]
      intro r hr
      obtain ⟨t, _, rfl⟩ := List.mem_map.mp hr
      simp
    have hf2 : (targets.map (fun t =>
        (⟨.not_aligned, 0, 0, none, t⟩ : MatchResult G))).filter
          (fun r => r.alignment == AlignStatus.not_aligned) =
        targets.map (fun t => (⟨.not_aligned, 0, 0, none, t⟩ : MatchResult G)) := by
      rw [List.filter_eq_self]
      intro r hr
      obtain ⟨t, _, rfl⟩ := List.mem_map.mp hr
      simp
    simp only [hf1, hf2, List.nil_append]
  · intro refs t h
    rcases align_bestOverlap_cases A t refs with ⟨heq, _⟩ |
      ⟨r, l₁, l₂, hsplit, hint, hpos, heq, h₁, h₂⟩
    · rw [align_one_of_none A maxDistance minOverlapRatio refs t heq] at h ⊢
      exact align_fallback_not_aligned_eq A maxDistance refs t h
    · rw [align_one_of_some A maxDistance minOverlapRatio refs t r
        (align_ratio A t r) heq] at h ⊢
      by_cases hge : align_ratio A t r ≥ minOverlapRatio
      · rw [if_pos hge] at h
        exact absurd h (by simp)
      · rw [if_neg hge] at h ⊢
        exact align_fallback_not_aligned_eq A maxDistance refs t h

/-- C3, witness: a target far from the only reference ends `not_aligned`
with its geometry unchanged and zeroed diagnostics; and with no
references, the collection output maps every target to the same record. -/
theorem C3_empty_refs_not_aligned_witness :
    align_one RA 1 (1/2) [[(⟨100, 100, 101, 101⟩ : Rect)]] [(⟨0, 0, 2, 2⟩ : Rect)] =
      { alignment := .not_aligned, ref_area := 0, overlap := 0, distance := none,
        geometry := [(⟨0, 0, 2, 2⟩ : Rect)] } ∧
    align_target_to_reference_inside RA 1 (1/2) [[(⟨0, 0, 2, 2⟩ : Rect)]] [] =
      [{ alignment := .not_aligned, ref_area := 0, overlap := 0, distance := none,
         geometry := [(⟨0, 0, 2, 2⟩ : Rect)] }] := by
  constructor
  · exact (C3_empty_refs_not_aligned RA 1 (1/2)).2 [[(⟨100, 100, 101, 101⟩ : Rect)]]
      [(⟨0, 0, 2, 2⟩ : Rect)] (by decide)
  · exact (C3_empty_refs_not_aligned RA 1 (1/2)).1 [[(⟨0, 0, 2, 2⟩ : Rect)]]

/-- C2, counterexample.  The claim asserts that an `Adjusted` result
records the centroid distance; in src/modules/process/align.py lines
136-139 the adjusted record carries only `alignment`, `ref_area` and
`overlap = 0`, and no distance key is ever written.  Concretely: a
(0,0)-(2,2) target 10 m from a (10,0)-(12,2) reference with
`max_distance = 10` (squared: 100) is `Adjusted`, yet no distance is
recorded. -/
theorem C2_counterexample :
    ¬ ((align_one RA 100 (1/2) [[(⟨10, 0, 12, 2⟩ : Rect)]]
          [(⟨0, 0, 2, 2⟩ : Rect)]).alignment = AlignStatus.adjusted →
        (align_one RA 100 (1/2) [[(⟨10, 0, 12, 2⟩ : Rect)]]
          [(⟨0, 0, 2, 2⟩ : Rect)]).distance.isSome = true) := by
  decide

/-- C2, amended: when the best overlap ratio is below
`min_overlap_ratio` and the nearest reference (by centroid distance) is
within `max_distance`, the result is `Adjusted`; its geometry is the
input rigidly translated by `p - centroid(t)` where `p` is the nearest
point on the selected reference to the target's centroid, so (given that
translation shifts centroids and preserves area, the two hypotheses on
`A`) the output centroid equals `p` and the output area equals the input
area; the reference's area is recorded, the recorded overlap is 0, and —
amending the claim — *no* distance is recorded. -/
theorem C2_adjusted_translation {G : Type} (A : GeomAdapter G)
    (maxDistance minOverlapRatio : ℚ) (refs : List G) (t nr : G) (d : ℚ)
    (hbr : spec_bestOverlapRatio A t refs < minOverlapRatio)
    (hnear : align_nearest A t refs = some (nr, d))
    (hd : d ≤ maxDistance)
    (harea : ∀ dx dy, A.area (A.translate t dx dy) = A.area t)
    (hcent : ∀ dx dy, A.centroid (A.translate t dx dy) =
      ((A.centroid t).1 + dx, (A.centroid t).2 + dy)) :
    (align_one A maxDistance minOverlapRatio refs t).alignment =
        AlignStatus.adjusted ∧
    (align_one A maxDistance minOverlapRatio refs t).geometry =
      translate_polygon_to_point A t (A.nearestPointOn nr (A.centroid t)) ∧
    A.centroid (align_one A maxDistance minOverlapRatio refs t).geometry =
      A.nearestPointOn nr (A.centroid t) ∧
    A.area (align_one A maxDistance minOverlapRatio refs t).geometry = A.area t ∧
    (align_one A maxDistance minOverlapRatio refs t).ref_area = A.area nr ∧
    (align_one A maxDistance minOverlapRatio refs t).overlap = 0 ∧
    (align_one A maxDistance minOverlapRatio refs t).distance = none := by
  have hfb : align_one A maxDistance minOverlapRatio refs t =
      align_fallback A maxDistance refs t := by
    rcases align_bestOverlap_cases A t refs with ⟨heq, _⟩ |
      ⟨r, l₁, l₂, hsplit, hint, hpos, heq, h₁, h₂⟩
    · exact align_one_of_none A maxDistance minOverlapRatio refs t heq
    · have hv : align_ratio A t r = spec_bestOverlapRatio A t refs := by
        have hsnd := align_bestOverlap_snd A t refs
        rw [heq] at hsnd
        exact hsnd
      rw [align_one_of_some A maxDistance minOverlapRatio refs t r
        (align_ratio A t r) heq, if_neg]
      rw [hv]
      exact not_le_of_lt hbr
  have hres : align_one A maxDistance minOverlapRatio refs t =
      { alignment := .adjusted, ref_area := A.area nr, overlap := 0, distance := none,
        geometry := translate_polygon_to_point A t
          (A.nearestPointOn nr (A.centroid t)) } := by
    rw [hfb, align_fallback, hnear]
    simp [hd]
  rw [hres]
  refine ⟨rfl, rfl, ?_, ?_, rfl, rfl, rfl⟩
  · show A.centroid (translate_polygon_to_point A t
      (A.nearestPointOn nr (A.centroid t))) = A.nearestPointOn nr (A.centroid t)
    rw [translate_polygon_to_point, hcent]
    have h1 : (A.centroid t).1 + ((A.nearestPointOn nr (A.centroid t)).1 -
        (A.centroid t).1) = (A.nearestPointOn nr (A.centroid t)).1 := by ring
    have h2 : (A.centroid t).2 + ((A.nearestPointOn nr (A.centroid t)).2 -
        (A.centroid t).2) = (A.nearestPointOn nr (A.centroid t)).2 := by ring
    rw [h1, h2]
  · show A.area (translate_polygon_to_point A t
      (A.nearestPointOn nr (A.centroid t))) = A.area t
    rw [translate_polygon_to_point, harea]

/-- C2 amended, witness: the (0,0)-(2,2) target against the
(10,0)-(12,2) reference is translated to (9,0)-(11,2): centroid moved to
the nearest reference point (10,1), area preserved at 4, reference area 4
recorded, overlap 0, no distance recorded. -/
theorem C2_adjusted_translation_witness :
    (align_one RA 100 (1/2) [[(⟨10, 0, 12, 2⟩ : Rect)]]
        [(⟨0, 0, 2, 2⟩ : Rect)]).alignment = AlignStatus.adjusted ∧
    RA.centroid (align_one RA 100 (1/2) [[(⟨10, 0, 12, 2⟩ : Rect)]]
        [(⟨0, 0, 2, 2⟩ : Rect)]).geometry =
      RA.nearestPointOn [(⟨10, 0, 12, 2⟩ : Rect)]
        (RA.centroid [(⟨0, 0, 2, 2⟩ : Rect)]) ∧
    RA.area (align_one RA 100 (1/2) [[(⟨10, 0, 12, 2⟩ : Rect)]]
        [(⟨0, 0, 2, 2⟩ : Rect)]).geometry = RA.area [(⟨0, 0, 2, 2⟩ : Rect)] ∧
    (align_one RA 100 (1/2) [[(⟨10, 0, 12, 2⟩ : Rect)]]
        [(⟨0, 0, 2, 2⟩ : Rect)]).distance = none := by
  have h := C2_adjusted_translation RA 100 (1/2) [[(⟨10, 0, 12, 2⟩ : Rect)]]
    [(⟨0, 0, 2, 2⟩ : Rect)] [(⟨10, 0, 12, 2⟩ : Rect)] 100
    (by decide) (by decide) (by decide)
    (fun dx dy => by
      show mrArea ([(⟨0, 0, 2, 2⟩ : Rect)].map (fun r => Rect.shift r dx dy)) =
        mrArea [(⟨0, 0, 2, 2⟩ : Rect)]
      simp [mrArea, Rect.shift, Rect.rarea])
    (fun dx dy => by
      show mrCentroid ([(⟨0, 0, 2, 2⟩ : Rect)].map (fun r => Rect.shift r dx dy)) =
        ((mrCentroid [(⟨0, 0, 2, 2⟩ : Rect)]).1 + dx,
          (mrCentroid [(⟨0, 0, 2, 2⟩ : Rect)]).2 + dy)
      have ha : mrArea ([(⟨0, 0, 2, 2⟩ : Rect)].map (fun r => Rect.shift r dx dy)) =
          4 := by
        simp [mrArea, Rect.shift, Rect.rarea]
        ring
      simp [mrCentroid, ha, mrArea, Rect.shift, Rect.rarea, Rect.cx, Rect.cy]
      constructor <;> ring)
  exact ⟨h.1, h.2.2.1, h.2.2.2.1, h.2.2.2.2.2.2⟩

/-- The fallible best-overlap scan succeeds and agrees with the total one
whenever a zero-area target meets no reference. -/
theorem checkedGo_eq_some {G : Type} (A : GeomAdapter G) (t : G) :
    ∀ (l : List G) (acc : Option G × ℚ),
      (A.area t = 0 → ∀ r ∈ l, A.intersects t r = false) →
      align_bestOverlapCheckedGo A t l acc =
        some (l.foldl (maxStep (fun ref => A.intersects t ref) (align_ratio A t)) acc) := by
  intro l
  induction l with
  | nil => intro acc _; rfl
  | cons r rs ih =>
      intro acc h
      by_cases hint : A.intersects t r = true
      · have hA : ¬ A.area t = 0 := by
          intro h0
          have := h h0 r (List.mem_cons_self ..)
          rw [hint] at this
          exact Bool.noConfusion this
        have hstep : align_bestOverlapCheckedGo A t (r :: rs) acc =
            align_bestOverlapCheckedGo A t rs
              (if align_ratio A t r > acc.2 then (some r, align_ratio A t r) else acc) := by
          rw [align_bestOverlapCheckedGo]
          rw [if_pos hint, if_neg hA]
        rw [hstep, ih _ (fun h0 x hx => h h0 x (List.mem_cons_of_mem r hx))]
        have : (r :: rs).foldl (maxStep (fun ref => A.intersects t ref)
            (align_ratio A t)) acc = rs.foldl (maxStep (fun ref => A.intersects t ref)
              (align_ratio A t)) (if align_ratio A t r > acc.2
                then (some r, align_ratio A t r) else acc) := by
          rw [List.foldl_cons]
          congr 1
          rw [maxStep, if_pos hint]
        rw [this]
      · have hstep : align_bestOverlapCheckedGo A t (r :: rs) acc =
            align_bestOverlapCheckedGo A t rs acc := by
          rw [align_bestOverlapCheckedGo, if_neg hint]
        rw [hstep, ih _ (fun h0 x hx => h h0 x (List.mem_cons_of_mem r hx))]
        have : (r :: rs).foldl (maxStep (fun ref => A.intersects t ref)
            (align_ratio A t)) acc = rs.foldl (maxStep (fun ref => A.intersects t ref)
              (align_ratio A t)) acc := by
          rw [List.foldl_cons]
          congr 1
          rw [maxStep, if_neg hint]
        rw [this]

/-- The fallible best-overlap scan raises exactly when a zero-area target
meets some reference. -/
theorem checkedGo_eq_none {G : Type} (A : GeomAdapter G) (t : G) :
    ∀ (l : List G) (acc : Option G × ℚ), A.area t = 0 →
      (∃ r ∈ l, A.intersects t r = true) →
      align_bestOverlapCheckedGo A t l acc = none := by
  intro l
  induction l with
  | nil =>
      intro acc _ h
      obtain ⟨r, hr, _⟩ := h
      exact absurd hr (List.not_mem_nil r)
  | cons r rs ih =>
      intro acc h0 hex
      by_cases hint : A.intersects t r = true
      · rw [align_bestOverlapCheckedGo, if_pos hint, if_pos h0]
      · obtain ⟨x, hx, hix⟩ := hex
        rcases List.mem_cons.mp hx with rfl | hm
        · exact absurd hix hint
        · rw [align_bestOverlapCheckedGo, if_neg hint]
          exact ih acc h0 ⟨x, hm, hix⟩

/-- C10: the overlap-ratio division is unguarded, so the per-target
alignment is total exactly under the precondition that a target
intersecting at least one reference has strictly positive area: under the
precondition the fallible evaluation succeeds and agrees with the total
embedding (the division-by-zero branch is unreachable), and with a
zero-area target intersecting some reference it raises. -/
theorem C10_division_guard {G : Type} (A : GeomAdapter G)
    (maxDistance minOverlapRatio : ℚ) (refs : List G) (t : G) :
    (((∃ r ∈ refs, A.intersects t r = true) → 0 < A.area t) →
      align_one_checked A maxDistance minOverlapRatio refs t =
        some (align_one A maxDistance minOverlapRatio refs t)) ∧
    (A.area t = 0 → (∃ r ∈ refs, A.intersects t r = true) →
      align_one_checked A maxDistance minOverlapRatio refs t = none) := by
  constructor
  · intro h
    have hno : A.area t = 0 → ∀ r ∈ refs, A.intersects t r = false := by
      intro h0 r hr
      by_contra hne
      have hi : A.intersects t r = true := by
        cases hb : A.intersects t r
        · exact absurd hb hne
        · rfl
      have := h ⟨r, hr, hi⟩
      rw [h0] at this
      exact absurd this (lt_irrefl 0)
    rw [align_one_checked, checkedGo_eq_some A t refs (none, 0) hno]
    rfl
  · intro h0 hex
    rw [align_one_checked, checkedGo_eq_none A t refs (none, 0) h0 hex]
    rfl

/-- C10, witness: a unit-square target coincident with a reference has
positive area, so the fallible and total evaluations agree; the
degenerate zero-area target (0,0)-(0,1) intersecting the same reference
makes the fallible evaluation raise. -/
theorem C10_division_guard_witness :
    align_one_checked RA 25 (1/2) [[(⟨0, 0, 1, 1⟩ : Rect)]] [(⟨0, 0, 1, 1⟩ : Rect)] =
      some (align_one RA 25 (1/2) [[(⟨0, 0, 1, 1⟩ : Rect)]] [(⟨0, 0, 1, 1⟩ : Rect)]) ∧
    align_one_checked RA 25 (1/2) [[(⟨0, 0, 1, 1⟩ : Rect)]] [(⟨0, 0, 0, 1⟩ : Rect)] =
      none := by
  constructor
  · exact (C10_division_guard RA 25 (1/2) [[(⟨0, 0, 1, 1⟩ : Rect)]]
      [(⟨0, 0, 1, 1⟩ : Rect)]).1 (fun _ => by decide)
  · exact (C10_division_guard RA 25 (1/2) [[(⟨0, 0, 1, 1⟩ : Rect)]]
      [(⟨0, 0, 0, 1⟩ : Rect)]).2 (by decide) (by decide)

/-! ### Determinism of the chunked coordinator (asign5.py) -/

/-- Merging keyed per-roof results into the output frame: writes at
distinct keys commute, and a write is recovered at its own key. -/
theorem aggregate_results_map {R : Type} (f : ℕ → R) :
    ∀ (l : List ℕ) (m : ℕ → Option R),
      (l.map (fun i => (i, f i))).foldl
          (fun (m : ℕ → Option R) (p : ℕ × R) => Function.update m p.1 (some p.2)) m =
        fun j => if j ∈ l then some (f j) else m j := by
  intro l
  induction l with
  | nil => intro m; funext j; simp
  | cons i il ih =>
      intro m
      have hstep : ((i :: il).map (fun i => (i, f i))).foldl
          (fun (m : ℕ → Option R) (p : ℕ × R) => Function.update m p.1 (some p.2)) m =
          (il.map (fun i => (i, f i))).foldl
            (fun (m : ℕ → Option R) (p : ℕ × R) => Function.update m p.1 (some p.2))
            (Function.update m i (some (f i))) := rfl
      rw [hstep, ih]
      funext j
      by_cases hjl : j ∈ il
      · rw [if_pos hjl, if_pos (List.mem_cons_of_mem i hjl)]
      · rw [if_neg hjl]
        by_cases hji : j = i
        · subst hji
          rw [if_pos (List.mem_cons_self ..), Function.update_same]
        · rw [if_neg (fun hc => (List.mem_cons.mp hc).elim hji hjl),
            Function.update_noteq hji]

/-- The coordinator's output is the canonical per-roof map: each processed
roof id is sent to the result of the per-roof search against the shared
address set, independently of how ids were grouped into chunks. -/
theorem run_pipeline_eq {G : Type} (A : GeomAdapter G) (roofs : ℕ → G)
    (addresses : List (ℕ × G)) (chunks : List (List ℕ)) :
    run_pipeline A roofs addresses chunks = fun j =>
      if j ∈ chunks.flatten then some (find_nearest_address A (roofs j) addresses)
      else none := by
  unfold run_pipeline aggregate_results process_chunk
  rw [← List.map_flatten, aggregate_results_map]

/-- C5: the chunked nearest-address pipeline is deterministic and
partition-invariant.  Each roof's record in the aggregated output is the
per-roof function of the shared inputs alone (so its classification does
not depend on which chunk it was placed in), and any two chunkings whose
chunks enumerate the same roof ids in any order — in particular any
worker count, chunk size, or `imap_unordered` arrival order — aggregate
to identical outputs. -/
theorem C5_chunking_deterministic {G : Type} (A : GeomAdapter G) (roofs : ℕ → G)
    (addresses : List (ℕ × G)) :
    (∀ (chunks : List (List ℕ)) (j : ℕ), j ∈ chunks.flatten →
      run_pipeline A roofs addresses chunks j =
        some (find_nearest_address A (roofs j) addresses)) ∧
    (∀ chunks1 chunks2 : List (List ℕ), chunks1.flatten.Perm chunks2.flatten →
      run_pipeline A roofs addresses chunks1 = run_pipeline A roofs addresses chunks2) := by
  constructor
  · intro chunks j hj
    rw [run_pipeline_eq]
    simp only [if_pos hj]
  · intro chunks1 chunks2 hperm
    rw [run_pipeline_eq, run_pipeline_eq]
    funext j
    by_cases hj : j ∈ chunks1.flatten
    · rw [if_pos hj, if_pos (hperm.mem_iff.mp hj)]
    · rw [if_neg hj, if_neg (fun hc => hj (hperm.mem_iff.mpr hc))]

/-- C5, witness: three roofs split as `[[0,1],[2]]` against one worker's
split `[[2],[1,0]]` produce the same aggregated map, and roof 1's record
is the per-roof search result. -/
theorem C5_chunking_deterministic_witness :
    run_pipeline RA (fun i => [(⟨(i : ℚ), 0, (i : ℚ) + 1, 1⟩ : Rect)])
        [(7, [(⟨0, 3, 0, 3⟩ : Rect)])] [[0, 1], [2]] =
      run_pipeline RA (fun i => [(⟨(i : ℚ), 0, (i : ℚ) + 1, 1⟩ : Rect)])
        [(7, [(⟨0, 3, 0, 3⟩ : Rect)])] [[2], [1, 0]] ∧
    run_pipeline RA (fun i => [(⟨(i : ℚ), 0, (i : ℚ) + 1, 1⟩ : Rect)])
        [(7, [(⟨0, 3, 0, 3⟩ : Rect)])] [[0, 1], [2]] 1 =
      some (find_nearest_address RA [(⟨(1 : ℚ), 0, (1 : ℚ) + 1, 1⟩ : Rect)]
        [(7, [(⟨0, 3, 0, 3⟩ : Rect)])]) := by
  constructor
  · exact (C5_chunking_deterministic RA (fun i => [(⟨(i : ℚ), 0, (i : ℚ) + 1, 1⟩ : Rect)])
      [(7, [(⟨0, 3, 0, 3⟩ : Rect)])]).2 [[0, 1], [2]] [[2], [1, 0]] (by decide)
  · exact (C5_chunking_deterministic RA (fun i => [(⟨(i : ℚ), 0, (i : ℚ) + 1, 1⟩ : Rect)])
      [(7, [(⟨0, 3, 0, 3⟩ : Rect)])]).1 [[0, 1], [2]] 1 (by decide)

/-! ### Bounding-box candidate retrieval versus exhaustive scan (asign5.py) -/

/-- C8, counterexample.  The claim asserts the bbox-restricted search
finds the same match as an exhaustive scan.  Take a two-part roof (two
unit squares at x∈[0,1] and x∈[100,101]) whose bounding box spans the gap
between them, an address A = (50, 1/2) inside that bounding box but
(squared) distance 2401 from the roof, and an address B = (1/2, 5/2)
outside the bounding box at squared distance 9/4.  The index returns only
A, so the restricted search picks A; the exhaustive scan picks B. -/
theorem C8_counterexample :
    find_nearest_address RA [(⟨0, 0, 1, 1⟩ : Rect), (⟨100, 0, 101, 1⟩ : Rect)]
        [(0, [(⟨50, 1/2, 50, 1/2⟩ : Rect)]), (1, [(⟨1/2, 5/2, 1/2, 5/2⟩ : Rect)])] ≠
      spec_nearest_full RA [(⟨0, 0, 1, 1⟩ : Rect), (⟨100, 0, 101, 1⟩ : Rect)]
        [(0, [(⟨50, 1/2, 50, 1/2⟩ : Rect)]), (1, [(⟨1/2, 5/2, 1/2, 5/2⟩ : Rect)])] := by
  decide

/-- C8, amended: the bbox-restricted search equals the exhaustive scan
exactly in the benign cases — when the index returns no candidate (the
code falls back to the full set) or when the exhaustive scan's winner is
itself a bbox candidate; outside these cases the restriction can change
which match is found (see the counterexample). -/
theorem C8_bbox_equals_full {G : Type} (A : GeomAdapter G) (roof : G)
    (addresses : List (ℕ × G)) (best : (ℕ × G) × ℚ)
    (hfull : argminFirst (fun a => A.dist a.2 roof) addresses = some best)
    (hin : (addresses.filter
        (fun a => Box.overlaps (A.bounds a.2) (A.bounds roof))).isEmpty = true ∨
      Box.overlaps (A.bounds best.1.2) (A.bounds roof) = true) :
    find_nearest_address A roof addresses = spec_nearest_full A roof addresses := by
  unfold find_nearest_address spec_nearest_full
  rcases hin with hemp | hover
  · simp only [hemp, if_true]
  · obtain ⟨hv, l₁, l₂, hsplit, h₁, h₂⟩ :=
      (argminFirst_eq_some_iff (fun a => A.dist a.2 roof) addresses best.1 best.2).mp
        hfull
    have hcands : addresses.filter
        (fun a => Box.overlaps (A.bounds a.2) (A.bounds roof)) =
        l₁.filter (fun a => Box.overlaps (A.bounds a.2) (A.bounds roof)) ++
          best.1 :: l₂.filter (fun a => Box.overlaps (A.bounds a.2) (A.bounds roof)) := by
      rw [hsplit, List.filter_append, List.filter_cons, if_pos hover]
    have hne : (addresses.filter
        (fun a => Box.overlaps (A.bounds a.2) (A.bounds roof))).isEmpty = false := by
      rw [hcands]
      cases l₁.filter (fun a => Box.overlaps (A.bounds a.2) (A.bounds roof)) <;> rfl
    have hargs : argminFirst (fun a => A.dist a.2 roof)
        (addresses.filter (fun a => Box.overlaps (A.bounds a.2) (A.bounds roof))) =
        some (best.1, best.2) := by
      apply (argminFirst_eq_some_iff _ _ _ _).mpr
      refine ⟨hv, _, _, hcands, ?_, ?_⟩
      · intro z hz
        exact h₁ z (List.mem_of_mem_filter hz)
      · intro z hz
        exact h₂ z (List.mem_of_mem_filter hz)
    simp only [hne, Bool.false_eq_true, if_false, hargs, hfull]

/-- C8 amended, witness: with a single-square roof and the exhaustive
winner inside the roof's bounding box, the restricted and exhaustive
searches agree. -/
theorem C8_bbox_equals_full_witness :
    find_nearest_address RA [(⟨0, 0, 2, 2⟩ : Rect)]
        [(0, [(⟨1, 1, 1, 1⟩ : Rect)]), (1, [(⟨10, 1, 10, 1⟩ : Rect)])] =
      spec_nearest_full RA [(⟨0, 0, 2, 2⟩ : Rect)]
        [(0, [(⟨1, 1, 1, 1⟩ : Rect)]), (1, [(⟨10, 1, 10, 1⟩ : Rect)])] := by
  exact C8_bbox_equals_full RA [(⟨0, 0, 2, 2⟩ : Rect)]
    [(0, [(⟨1, 1, 1, 1⟩ : Rect)]), (1, [(⟨10, 1, 10, 1⟩ : Rect)])]
    ((0, [(⟨1, 1, 1, 1⟩ : Rect)]), 0) (by decide) (Or.inr (by decide))

/-! ### The clustering-simplify pass (align_base.py) -/

/-- C6, counterexample.  The claim's candidate test is centroid-to-centroid
distance; the source's is the distance from the candidate's *geometry* to
the seed's centroid.  With `max_merge_distance = 50` (squared: 2500), a
2×2 seed square and a 2×100 rectangle sharing its right edge: the
rectangle's nearest point is 1 m from the seed's centroid (candidate in
the source, which merges both into one polygon), but its centroid is 51 m
away (not a candidate per the claim, which keeps two polygons). -/
theorem C6_counterexample :
    simplify_reference_polygons RA 2500
        [(0, [(⟨0, 0, 2, 2⟩ : Rect)]), (1, [(⟨2, 0, 102, 2⟩ : Rect)])] ≠
      simplify_claim_loop RA 2500 2
        [(0, [(⟨0, 0, 2, 2⟩ : Rect)]), (1, [(⟨2, 0, 102, 2⟩ : Rect)])] := by
  decide

/-- C6, amended: for row ids without duplicates and polygons that do not
touch themselves (true of every shapely polygon with interior), each
output polygon of `simplify_reference_polygons` is the union of the seed
with exactly those *remaining* polygons whose geometry lies within
`max_merge_distance` of the seed's centroid *and* that touch the seed;
consumed polygons are removed and the loop repeats until the working set
is empty — i.e. the source loop coincides with the amended
candidate-description loop at every fuel. -/
theorem C6_simplify_candidates {G : Type} (A : GeomAdapter G) (mm : ℚ) :
    ∀ (fuel : ℕ) (w : List (ℕ × G)),
      (w.map Prod.fst).Nodup →
      (∀ p ∈ w, A.touches p.2 p.2 = false) →
      simplify_loop A mm fuel w = simplify_amended_loop A mm fuel w := by
  intro fuel
  induction fuel with
  | zero => intro w _ _; cases w <;> rfl
  | succ fuel ih =>
      intro w hnd hself
      cases w with
      | nil => rfl
      | cons p rest =>
          obtain ⟨i, base⟩ := p
          have hbase : simplify_candidate A mm base base = false := by
            unfold simplify_candidate
            rw [hself (i, base) (List.mem_cons_self ..)]
            simp
          have hcands : ((i, base) :: rest).filter
              (fun q => simplify_candidate A mm base q.2) =
              rest.filter (fun q => simplify_candidate A mm base q.2) := by
            rw [List.filter_cons, if_neg]
            rw [hbase]
            simp
          have hnotin : i ∉ rest.map Prod.fst := by
            have h1 : (((i, base) :: rest).map Prod.fst).Nodup := hnd
            rw [List.map_cons, List.nodup_cons] at h1
            exact h1.1
          have hrem : rest.filter (fun q =>
              decide (q.1 ∉ (rest.filter
                (fun q => simplify_candidate A mm base q.2)).map Prod.fst) &&
                decide (q.1 ≠ i)) =
              rest.filter (fun q =>
                decide (q.1 ∉ (rest.filter
                  (fun q => simplify_candidate A mm base q.2)).map Prod.fst)) := by
            apply List.filter_congr
            intro q hq
            have hqi : q.1 ≠ i := by
              intro he
              exact hnotin (he ▸ List.mem_map_of_mem Prod.fst hq)
            simp [hqi]
          have hsub : (rest.filter (fun q =>
              decide (q.1 ∉ (rest.filter
                (fun q => simplify_candidate A mm base q.2)).map Prod.fst))).Sublist
              rest := List.filter_sublist rest
          have hnd' : ((rest.filter (fun q =>
              decide (q.1 ∉ (rest.filter
                (fun q => simplify_candidate A mm base q.2)).map Prod.fst))).map
                Prod.fst).Nodup := by
            have h1 : (((i, base) :: rest).map Prod.fst).Nodup := hnd
            rw [List.map_cons, List.nodup_cons] at h1
            exact (hsub.map Prod.fst).nodup h1.2
          have hself' : ∀ q ∈ rest.filter (fun q =>
              decide (q.1 ∉ (rest.filter
                (fun q => simplify_candidate A mm base q.2)).map Prod.fst)),
              A.touches q.2 q.2 = false := by
            intro q hq
            exact hself q (List.mem_cons_of_mem _ (hsub.mem hq))
          simp only [simplify_loop, simplify_amended_loop, hcands, hrem]
          rw [ih _ hnd' hself']

/-- C6 amended, witness at the counterexample configuration: the source
loop agrees with the amended candidate description, merging the seed
square with the edge-sharing rectangle whose geometry is 1 m from the
seed's centroid. -/
theorem C6_simplify_candidates_witness :
    simplify_reference_polygons RA 2500
        [(0, [(⟨0, 0, 2, 2⟩ : Rect)]), (1, [(⟨2, 0, 102, 2⟩ : Rect)])] =
      simplify_amended_loop RA 2500 2
        [(0, [(⟨0, 0, 2, 2⟩ : Rect)]), (1, [(⟨2, 0, 102, 2⟩ : Rect)])] := by
  exact C6_simplify_candidates RA 2500 2
    [(0, [(⟨0, 0, 2, 2⟩ : Rect)]), (1, [(⟨2, 0, 102, 2⟩ : Rect)])]
    (by decide) (by decide)

/-! ### The merge-small pass (merge.py) -/

theorem extract_component_disjoint (fuel : ℕ) (comp : MRect) (rest : List Rect)
    (h : ∀ s ∈ rest, ∀ c ∈ comp, Rect.closedInter c s = false) :
    extract_component fuel comp rest = (comp, rest) := by
  cases fuel with
  | zero => rfl
  | succ fuel =>
      have hnew : rest.filter (fun r => comp.any (fun c => Rect.closedInter c r)) = [] := by
        rw [List.filter_eq_nil_iff]
        intro r hr
        rw [List.any_eq_true]
        rintro ⟨c, hc, hcr⟩
        rw [h r hr c hc] at hcr
        exact Bool.noConfusion hcr
      simp only [extract_component, hnew, List.isEmpty_nil, if_true]

theorem components_go_disjoint :
    ∀ (l : List Rect) (fuel : ℕ), l.length ≤ fuel →
      l.Pairwise (fun a b => Rect.closedInter a b = false) →
      components_go fuel l = l.map (fun r => [r]) := by
  intro l
  induction l with
  | nil => intro fuel _ _; cases fuel <;> rfl
  | cons r rs ih =>
      intro fuel hf hpw
      cases fuel with
      | zero => exact absurd hf (by simp)
      | succ fuel =>
          have hd : ∀ s ∈ rs, ∀ c ∈ [r], Rect.closedInter c s = false := by
            intro s hs c hc
            rcases List.mem_singleton.mp hc with rfl
            exact (List.pairwise_cons.mp hpw).1 s hs
          have hex := extract_component_disjoint (fuel + 1) [r] rs hd
          simp only [components_go, hex]
          rw [ih fuel (Nat.le_of_succ_le_succ (by simpa using hf))
            (List.pairwise_cons.mp hpw).2]
          rfl

/-- Decomposition of a union of pairwise-disjoint rectangles returns each
rectangle as its own part, in order. -/
theorem rcomponents_disjoint (l : List Rect)
    (h : l.Pairwise (fun a b => Rect.closedInter a b = false)) :
    rcomponents l = l.map (fun r => [r]) :=
  components_go_disjoint l l.length (le_refl _) h

theorem singleton_rep_of_length :
    ∀ l : List MRect, l.all (fun g => g.length == 1) = true →
      ∀ g ∈ l, ∃ r, g = [r] := by
  intro l hall g hg
  have hlen := List.all_eq_true.mp hall g hg
  cases g with
  | nil => exact absurd hlen (by decide)
  | cons a t =>
      cases t with
      | nil => exact ⟨a, rfl⟩
      | cons b t2 => simp at hlen

theorem exists_singleton_rep :
    ∀ l : List MRect, (∀ g ∈ l, ∃ r, g = [r]) →
      ∃ rs : List Rect, l = rs.map (fun r => [r]) := by
  intro l
  induction l with
  | nil => intro _; exact ⟨[], rfl⟩
  | cons g gs ih =>
      intro h
      obtain ⟨r, hr⟩ := h g (List.mem_cons_self ..)
      obtain ⟨rs, hrs⟩ := ih (fun x hx => h x (List.mem_cons_of_mem _ hx))
      exact ⟨r :: rs, by rw [hr, hrs]; rfl⟩

theorem flatten_singleton_map :
    ∀ rs : List Rect, (rs.map (fun r => [r])).flatten = rs := by
  intro rs
  induction rs with
  | nil => rfl
  | cons r rs ih => simp only [List.map_cons, List.flatten_cons, ih]; rfl

/-- C7: the merge-small pass returns the large polygons unchanged together
with the decomposition of the geometric union of the small polygons
(given the adapter's decomposition of an empty union is empty — the only
difference from the source's emptiness guard); and, in the concrete union
model, when the small polygons are single parts that are pairwise
disjoint, the union-then-decompose step returns them unchanged as
separate output parts — only touching or overlapping small polygons are
ever fused. -/
theorem C7_merge_small_union_decompose :
    (∀ (G : Type) (A : GeomAdapter G) (minArea : ℚ) (refs : List G),
      A.decompose (A.unionAll []) = [] →
      merge_small_adjacent_polygons A minArea refs = spec_mergeSmall A minArea refs) ∧
    (∀ (minArea : ℚ) (refs : List MRect),
      (∀ g ∈ refs.filter (fun g => decide (RA.area g < minArea)), ∃ r, g = [r]) →
      (refs.filter (fun g => decide (RA.area g < minArea))).Pairwise
        (fun g h => RA.intersects g h = false) →
      merge_small_adjacent_polygons RA minArea refs =
        refs.filter (fun g => decide (RA.area g ≥ minArea)) ++
          refs.filter (fun g => decide (RA.area g < minArea))) := by
  constructor
  · intro G A minArea refs hdc
    unfold merge_small_adjacent_polygons spec_mergeSmall
    by_cases hsm : (refs.filter (fun g => decide (A.area g < minArea))).isEmpty = true
    · have hnil : refs.filter (fun g => decide (A.area g < minArea)) = [] :=
        List.isEmpty_iff.mp hsm
      rw [hnil, hdc]
      simp
    · simp only [if_neg hsm]
  · intro minArea refs hsing hpw
    unfold merge_small_adjacent_polygons
    by_cases hsm : (refs.filter (fun g => decide (RA.area g < minArea))).isEmpty = true
    · have hnil : refs.filter (fun g => decide (RA.area g < minArea)) = [] :=
        List.isEmpty_iff.mp hsm
      rw [hnil]
      simp
    · simp only [if_neg hsm]
      obtain ⟨rs, hrs⟩ := exists_singleton_rep _ hsing
      have hpw' : rs.Pairwise (fun a b => Rect.closedInter a b = false) := by
        have h1 : (rs.map (fun r => [r])).Pairwise
            (fun g h => RA.intersects g h = false) := hrs ▸ hpw
        have h2 := (List.pairwise_map.mp h1)
        refine h2.imp ?_
        intro a b hab
        have : RA.intersects [a] [b] = (Rect.closedInter a b || false) := by
          show mrIntersects [a] [b] = _
          simp [mrIntersects]
        rw [this, Bool.or_false] at hab
        exact hab
      have hdec : RA.decompose (RA.unionAll
          (refs.filter (fun g => decide (RA.area g < minArea)))) =
          refs.filter (fun g => decide (RA.area g < minArea)) := by
        show rcomponents (List.flatten
          (refs.filter (fun g => decide (RA.area g < minArea)))) = _
        rw [hrs, flatten_singleton_map, rcomponents_disjoint rs hpw']
      rw [hdec]

/-- C7, witness: one large strip and two disjoint small unit squares with
`min_area = 10`: the merge pass equals the spec's union-then-decompose
form, and the two disjoint small squares come out unchanged as separate
parts after the large strip. -/
theorem C7_merge_small_union_decompose_witness :
    merge_small_adjacent_polygons RA 10
        [[(⟨0, 10, 100, 20⟩ : Rect)], [(⟨0, 0, 1, 1⟩ : Rect)], [(⟨5, 0, 6, 1⟩ : Rect)]] =
      spec_mergeSmall RA 10
        [[(⟨0, 10, 100, 20⟩ : Rect)], [(⟨0, 0, 1, 1⟩ : Rect)], [(⟨5, 0, 6, 1⟩ : Rect)]] ∧
    merge_small_adjacent_polygons RA 10
        [[(⟨0, 10, 100, 20⟩ : Rect)], [(⟨0, 0, 1, 1⟩ : Rect)], [(⟨5, 0, 6, 1⟩ : Rect)]] =
      [[(⟨0, 10, 100, 20⟩ : Rect)]] ++ [[(⟨0, 0, 1, 1⟩ : Rect)], [(⟨5, 0, 6, 1⟩ : Rect)]] := by
  constructor
  · exact C7_merge_small_union_decompose.1 MRect RA 10
      [[(⟨0, 10, 100, 20⟩ : Rect)], [(⟨0, 0, 1, 1⟩ : Rect)], [(⟨5, 0, 6, 1⟩ : Rect)]]
      (by decide)
  · have h := C7_merge_small_union_decompose.2 10
      [[(⟨0, 10, 100, 20⟩ : Rect)], [(⟨0, 0, 1, 1⟩ : Rect)], [(⟨5, 0, 6, 1⟩ : Rect)]]
      (singleton_rep_of_length _ (by decide)) (by decide)
    rw [h]
    decide

/-! ### Accounting of targets in the chunked intersection run (divpar6.py) -/

/-- Membership in one chunk's intersection result: a row appears exactly
for a chunk roof and a relevant parcel that intersect, with the
two-dimensional non-empty intersection geometry. -/
theorem process_intersection_mem {G : Type} (A : GeomAdapter G)
    (parcelles : List (ℕ × G)) (chunk : List (ℕ × G)) (x : ℕ × G) :
    x ∈ process_intersection A parcelles chunk ↔
      (relevant_parcelles A parcelles chunk).isEmpty = false ∧
      ∃ t ∈ chunk, ∃ p ∈ relevant_parcelles A parcelles chunk,
        A.intersects t.2 p.2 = true ∧ x = (t.1, A.interGeom t.2 p.2) ∧
        A.isPoly2D x.2 = true ∧ A.isEmptyG x.2 = false := by
  unfold process_intersection
  by_cases hrel : (relevant_parcelles A parcelles chunk).isEmpty = true
  · simp only [hrel, if_true]
    constructor
    · intro h
      exact absurd h (List.not_mem_nil x)
    · rintro ⟨hfalse, _⟩
      exact Bool.noConfusion hfalse
  · have hrel' : (relevant_parcelles A parcelles chunk).isEmpty = false := by
      cases h : (relevant_parcelles A parcelles chunk).isEmpty
      · rfl
      · exact absurd h hrel
    simp only [if_neg hrel, hrel', true_and]
    constructor
    · intro hx
      obtain ⟨hx1, hne⟩ := List.mem_filter.mp hx
      obtain ⟨hx2, hpoly⟩ := List.mem_filter.mp hx1
      obtain ⟨l, hl, hxl⟩ := List.mem_flatten.mp hx2
      obtain ⟨t, ht, rfl⟩ := List.mem_map.mp hl
      obtain ⟨p, hp, hfm⟩ := List.mem_filterMap.mp hxl
      by_cases hint : A.intersects t.2 p.2 = true
      · rw [if_pos hint] at hfm
        injection hfm with hfm
        refine ⟨t, ht, p, hp, hint, hfm.symm, hpoly, ?_⟩
        cases hb : A.isEmptyG x.2
        · rfl
        · rw [hb] at hne
          exact Bool.noConfusion hne
      · rw [if_neg hint] at hfm
        exact absurd hfm (by simp)
    · rintro ⟨t, ht, p, hp, hint, rfl, hpoly, hemp⟩
      apply List.mem_filter.mpr
      refine ⟨List.mem_filter.mpr ⟨?_, hpoly⟩, by rw [hemp]; rfl⟩
      apply List.mem_flatten.mpr
      refine ⟨_, List.mem_map.mpr ⟨t, ht, rfl⟩, List.mem_filterMap.mpr ⟨p, hp, ?_⟩⟩
      rw [if_pos hint]

/-- C9, counterexample.  The claim asserts every input target appears in
exactly one of {output collection, invalid-geometry report, failed-chunk
report}.  A single chunk containing roof 0 (a 2×2 square) against a
parcel that merely shares its right edge: the parcel is bbox-relevant,
the overlay produces one row whose geometry is the shared edge (a
lower-dimensional, `isPoly2D = false` intersection), the row is filtered
out with only a console print, no chunk fails, and the source maintains
no invalid-geometry report — so roof 0 appears in none of the
collections. -/
theorem C9_counterexample :
    ¬ ((0 ∈ ((divide_roofs_by_parcelles RA [(5, [(⟨2, 0, 4, 2⟩ : Rect)])]
          [[(0, [(⟨0, 0, 2, 2⟩ : Rect)])]]).1).map Prod.fst) ∨
       0 ∈ (divide_roofs_by_parcelles RA [(5, [(⟨2, 0, 4, 2⟩ : Rect)])]
          [[(0, [(⟨0, 0, 2, 2⟩ : Rect)])]]).2) := by
  decide

/-- C9, amended.  The alignment function itself drops nothing: its output
collection is a permutation of the per-target results (every target
appears exactly once).  The chunked intersection run, however, has no
invalid-geometry report at all (its failed-chunk list — populated only by
worker exceptions, absent in a pure execution — is empty here), and a
target id appears in the aggregated output exactly when some chunk
containing it has a bbox-relevant parcel whose intersection with the
target is two-dimensional and non-empty; all other targets are silently
dropped. -/
theorem C9_target_accounting {G : Type} (A : GeomAdapter G)
    (parcelles : List (ℕ × G)) (chunks : List (List (ℕ × G))) :
    (divide_roofs_by_parcelles A parcelles chunks).2 = [] ∧
    (∀ (maxDistance minOverlapRatio : ℚ) (targets refs : List G),
      (align_target_to_reference_inside A maxDistance minOverlapRatio targets
        refs).Perm (targets.map (align_one A maxDistance minOverlapRatio refs))) ∧
    (∀ tid : ℕ,
      tid ∈ ((divide_roofs_by_parcelles A parcelles chunks).1).map Prod.fst ↔
      ∃ c ∈ chunks, ∃ g, (tid, g) ∈ c ∧
        (relevant_parcelles A parcelles c).isEmpty = false ∧
        ∃ p ∈ relevant_parcelles A parcelles c, A.intersects g p.2 = true ∧
          A.isPoly2D (A.interGeom g p.2) = true ∧
          A.isEmptyG (A.interGeom g p.2) = false) := by
  refine ⟨rfl, ?_, ?_⟩
  · intro maxDistance minOverlapRatio targets refs
    show ((targets.map (align_one A maxDistance minOverlapRatio refs)).filter
        (fun r => !(r.alignment == AlignStatus.not_aligned)) ++
      (targets.map (align_one A maxDistance minOverlapRatio refs)).filter
        (fun r => r.alignment == AlignStatus.not_aligned)).Perm
      (targets.map (align_one A maxDistance minOverlapRatio refs))
    have hq : (targets.map (align_one A maxDistance minOverlapRatio refs)).filter
        (fun r => r.alignment == AlignStatus.not_aligned) =
        (targets.map (align_one A maxDistance minOverlapRatio refs)).filter
          (fun r => !(!(r.alignment == AlignStatus.not_aligned))) := by
      apply List.filter_congr
      intro a _
      rw [Bool.not_not]
    rw [hq]
    exact List.filter_append_perm _ _
  · intro tid
    constructor
    · intro h
      obtain ⟨x, hx, hfst⟩ := List.mem_map.mp h
      obtain ⟨l, hl, hxl⟩ := List.mem_flatten.mp hx
      obtain ⟨c, hc, rfl⟩ := List.mem_map.mp hl
      obtain ⟨hne, t, ht, p, hp, hint, hxeq, hpoly, hemp⟩ :=
        (process_intersection_mem A parcelles c x).mp hxl
      have htid : t.1 = tid := by
        rw [hxeq] at hfst
        exact hfst
      have hteta : (tid, t.2) = t := by
        rw [← htid]
      have hx2 : x.2 = A.interGeom t.2 p.2 := by
        rw [hxeq]
      refine ⟨c, hc, t.2, hteta ▸ ht, hne, p, hp, hint, ?_, ?_⟩
      · rw [← hx2]
        exact hpoly
      · rw [← hx2]
        exact hemp
    · rintro ⟨c, hc, g, htg, hne, p, hp, hint, hpoly, hemp⟩
      apply List.mem_map.mpr
      refine ⟨(tid, A.interGeom g p.2), ?_, rfl⟩
      apply List.mem_flatten.mpr
      refine ⟨process_intersection A parcelles c,
        List.mem_map.mpr ⟨c, hc, rfl⟩, ?_⟩
      exact (process_intersection_mem A parcelles c _).mpr
        ⟨hne, (tid, g), htg, p, hp, hint, rfl, hpoly, hemp⟩

/-- C9 amended, witness: a roof genuinely overlapping a relevant parcel
appears in the output (the characterization's right-to-left direction at
a concrete input), and the failed list is empty. -/
theorem C9_target_accounting_witness :
    (0 ∈ ((divide_roofs_by_parcelles RA [(5, [(⟨1, 0, 4, 2⟩ : Rect)])]
        [[(0, [(⟨0, 0, 2, 2⟩ : Rect)])]]).1).map Prod.fst) ∧
    (divide_roofs_by_parcelles RA [(5, [(⟨1, 0, 4, 2⟩ : Rect)])]
        [[(0, [(⟨0, 0, 2, 2⟩ : Rect)])]]).2 = [] := by
  have h := C9_target_accounting RA [(5, [(⟨1, 0, 4, 2⟩ : Rect)])]
    [[(0, [(⟨0, 0, 2, 2⟩ : Rect)])]]
  refine ⟨(h.2.2 0).mpr ?_, h.1⟩
  refine ⟨[(0, [(⟨0, 0, 2, 2⟩ : Rect)])], by decide, [(⟨0, 0, 2, 2⟩ : Rect)],
    by decide, by decide, (5, [(⟨1, 0, 4, 2⟩ : Rect)]), by decide, by decide,
    by decide, by decide⟩

end Interface
